import Mathlib

/-! # Verification development for the `advanced-microprocessor` firmware

Shallow embedding of the four homework programs (`Odev1` .. `Odev4`) of the
repository.  Every C function is rendered as a pure Lean function; hardware
side effects (GPIO writes, busy-wait delays, UART transmissions, ADC
accesses) are recorded as a list of events, in program order.

Machine integers are `Nat`/`Int` with explicit reduction: `uint8_t` values
are taken modulo 256, `uint32_t` modulo 2^32 and `int` is wrapped to the
signed 32-bit range.
-/

namespace Firmware

/-! ## Hardware events -/

/-- GPIO ports used by the programs. -/
inductive Port where
  | A | B | E | F
  deriving DecidableEq, Repr

/-- Observable hardware actions, in the order the program issues them. -/
inductive Ev where
  /-- Call `GPIOPinWrite(port, pins, val)`. -/
  | gpioWrite (port : Port) (pins : Nat) (val : Nat)
  /-- Call `SysCtlDelay(n)`. -/
  | delay (n : Nat)
  /-- Call `UARTCharPut(UART0_BASE, c)`. -/
  | uartPut (c : Nat)
  /-- Call `TimerIntClear(TIMER0_BASE, TIMER_TIMA_TIMEOUT)`. -/
  | timerIntClear
  /-- Call `ADCProcessorTrigger(ADC0_BASE, 3)`. -/
  | adcTrigger
  /-- Call `ADCIntClear(ADC0_BASE, 3)`. -/
  | adcIntClear
  /-- Call `ADCSequenceDataGet(ADC0_BASE, 3, ..)` delivering the sample `v`. -/
  | adcDataGet (v : Nat)
  /-- Call `SysCtlPeripheralEnable` for the GPIO port `port`. -/
  | periphEnable (port : Port)
  /-- Call `GPIOPinTypeGPIOOutput(port, pins)`. -/
  | pinTypeOutput (port : Port) (pins : Nat)
  deriving DecidableEq, Repr

/-- Conversion of an arithmetic result to `int` (two's complement, 32 bit). -/
def wrapInt32 (x : Int) : Int := (x + 2147483648) % 4294967296 - 2147483648

/-- Conversion of an arithmetic result to `uint8_t` / `unsigned char`. -/
def u8 (x : Nat) : Nat := x % 256

/-- Conversion of an arithmetic result to `uint32_t`. -/
def u32 (x : Nat) : Nat := x % 4294967296

/-- Bytes of a string literal. -/
def bytes (s : String) : List Nat := s.data.map Char.toNat

/-! ## Hardware abstraction layer and C library -/

/-- Modelled from the spec: the pin masks `GPIO_PIN_0 .. GPIO_PIN_7` of the
hardware abstraction layer (`driverlib/gpio.h`, not part of the sources); pin
`n` is bit `n` of the port, as the source comments say (`0x08` is pin 3). -/
def GPIO_PIN (n : Nat) : Nat := 2 ^ n

/-- Level of every pin (0..7) of every port. -/
abbrev Pins := Port → Nat → Bool

/-- Modelled from the spec: `gpio_write(pin_mask, value)` of the hardware
abstraction layer (`GPIOPinWrite`, not part of the sources): every pin
selected by the mask takes the corresponding bit of the value, the other pins
keep their level. -/
def gpioApply (s : Pins) (port : Port) (pins val : Nat) : Pins :=
  fun q i => if q = port ∧ i < 8 ∧ pins.testBit i then val.testBit i else s q i

/-- Effect of one event on the pins. -/
def applyEv (s : Pins) : Ev → Pins
  | Ev.gpioWrite port pins val => gpioApply s port pins val
  | _ => s

/-- Pin states after each event of a trace, in order. -/
def snapshots : Pins → List Ev → List Pins
  | _, [] => []
  | s, e :: es => applyEv s e :: snapshots (applyEv s e) es

/-- Pin state after a whole trace. -/
def runEvs (s : Pins) (es : List Ev) : Pins := es.foldl applyEv s

/-- The GPIO writes of a trace (delays and other events dropped). -/
def pinWrites (es : List Ev) : List Ev :=
  es.filter fun e => match e with
    | Ev.gpioWrite _ _ _ => true
    | _ => false

/-- Connection of the display: register-select and enable pins, and the port
whose pins 4..7 carry the data nibble. -/
structure Wiring where
  rsPort : Port
  rsPin : Nat
  enPort : Port
  enPin : Nat
  dataPort : Port
  deriving DecidableEq, Repr

/-- Value presented on the data lines D4..D7 (pins 4..7 of the data port). -/
def dataNibble (w : Wiring) (s : Pins) : Nat :=
  (if s w.dataPort 4 then 1 else 0) + (if s w.dataPort 5 then 2 else 0) +
  (if s w.dataPort 6 then 4 else 0) + (if s w.dataPort 7 then 8 else 0)

/-- Value carried by bits 4..7 of a byte written to the data port. -/
def nibbleBits (v : Nat) : Nat :=
  (if v.testBit 4 then 1 else 0) + (if v.testBit 5 then 2 else 0) +
  (if v.testBit 6 then 4 else 0) + (if v.testBit 7 then 8 else 0)

/-- What the display latches: at every falling edge of the enable pin, the
register-select level and the nibble on the data lines just before the edge. -/
def lcdLatched (w : Wiring) : Pins → List Ev → List (Bool × Nat)
  | _, [] => []
  | s, e :: es =>
    let s' := applyEv s e
    if s w.enPort w.enPin && !(s' w.enPort w.enPin) then
      (s w.rsPort w.rsPin, dataNibble w s) :: lcdLatched w s' es
    else lcdLatched w s' es

/-- A write that drives the register-select pin low. -/
def lowersRS (w : Wiring) : Ev → Bool
  | Ev.gpioWrite port pins val =>
    decide (port = w.rsPort) && pins.testBit w.rsPin && !(val.testBit w.rsPin)
  | _ => false

/-- Modelled from the spec: `isspace` of the C library (not part of the
sources), "C" locale. -/
def isspace (c : Nat) : Bool := c = 32 || (9 ≤ c && c ≤ 13)

/-- Modelled from the spec: `isdigit` of the C library (not part of the
sources). -/
def isdigit (c : Nat) : Bool := 48 ≤ c && c ≤ 57

/-- Digit accumulation of `atoi`: stops at the first byte that is not a
decimal digit. -/
def atoiDigits : List Nat → Nat → Nat
  | [], acc => acc
  | c :: cs, acc => if isdigit c then atoiDigits cs (acc * 10 + (c - 48)) else acc

/-- Modelled from the spec: `atoi` of the C library (not part of the sources),
"decimal integer conversion" of a text: leading white space is skipped, an
optional sign is read, then decimal digits up to the first other byte. -/
def atoi (s : List Nat) : Int :=
  match s.dropWhile isspace with
  | [] => 0
  | c :: cs =>
    if c = 45 then wrapInt32 (-(atoiDigits cs 0 : Int))
    else if c = 43 then wrapInt32 (atoiDigits cs 0 : Int)
    else wrapInt32 (atoiDigits (c :: cs) 0 : Int)

/-- The C string starting at offset `k` of a buffer: the bytes before the
first NUL. -/
def cstrAt (buf : List Nat) (k : Nat) : List Nat := (buf.drop k).takeWhile (· ≠ 0)

/-- Decimal digits (ASCII) of `n`, most significant first. -/
def utoaAux : Nat → Nat → List Nat → List Nat
  | 0, _, acc => acc
  | fuel + 1, n, acc =>
    if n < 10 then (48 + n) :: acc else utoaAux fuel (n / 10) ((48 + n % 10) :: acc)

/-- Decimal conversion of a non-negative number. -/
def utoa (n : Nat) : List Nat := utoaAux (n + 1) n []

/-- Modelled from the spec: the `%u` conversion of `sprintf` (C library, not
part of the sources), "unsigned decimal". -/
def fmt_u (x : Nat) : List Nat := utoa (u32 x)

/-- Modelled from the spec: the `%d` conversion of `sprintf` (C library, not
part of the sources). -/
def fmt_d (x : Int) : List Nat :=
  if x < 0 then 45 :: utoa x.natAbs else utoa x.natAbs

/-- Modelled from the spec: the `%02d` conversion of `sprintf` (C library, not
part of the sources): minimum width 2, padded with zeros after the sign. -/
def fmt_02d (x : Int) : List Nat :=
  let ds := utoa x.natAbs
  if x < 0 then 45 :: (List.replicate (1 - ds.length) 48 ++ ds)
  else List.replicate (2 - ds.length) 48 ++ ds

/-- Modelled from the spec: the `%4u` conversion of `sprintf` (C library, not
part of the sources): minimum width 4, padded with blanks on the left. -/
def fmt_4u (x : Nat) : List Nat :=
  let ds := fmt_u x
  List.replicate (4 - ds.length) 32 ++ ds

/-- Number denoted by a text of ASCII decimal digits. -/
def decimalValue (ds : List Nat) : Nat := ds.foldl (fun a c => 10 * a + (c - 48)) 0

/-- Texts matched by the pattern `^\d{2}:\d{2}:\d{2};\d+;[01]\r\n$`. -/
def MatchesTelemetry (l : List Nat) : Prop :=
  ∃ a b c d e f ds x,
    isdigit a = true ∧ isdigit b = true ∧ isdigit c = true ∧ isdigit d = true ∧
    isdigit e = true ∧ isdigit f = true ∧
    ds ≠ [] ∧ (∀ y ∈ ds, isdigit y = true) ∧ (x = 48 ∨ x = 49) ∧
    l = [a, b, 58, c, d, 58, e, f, 59] ++ ds ++ [59, x, 13, 10]

/-! ## Odev4: serial GUI firmware -/

namespace Odev4

/-- Control point of the main loop with respect to the UART receive phase
(`main`, lines 220-248): either the loop is free-running, or it is spinning in
one of the two `while(!UARTCharsAvail(UART0_BASE));` loops waiting for payload
byte number `i`. -/
inductive Pc where
  | idle
  | timeWait (i : Nat)
  | msgWait (i : Nat)
  deriving DecidableEq, Repr

/-- Global variables of `Odev4_Serial_GUI/main.c`, the local buffer `b` of the
`'S'` branch, the control point and the trace of hardware events. -/
structure State where
  hours : Int
  minutes : Int
  seconds : Int
  adcValue : Nat
  lcd_custom_msg : List Nat
  send_report_flag : Bool
  button_latch : Bool
  l1 : List Nat
  l2 : List Nat
  txBuf : List Nat
  b : List Nat
  pc : Pc
  trace : List Ev
  deriving DecidableEq, Repr

/-- State at entry of the main loop: the initialisers of the globals
(`hours = 0, minutes = 0, seconds = 0`, `lcd_custom_msg[8] = "---"`, both
flags false, zeroed buffers).  The local `b[9]` is not initialised by the
program; its nine cells are given the value 0 here. -/
def initState : State where
  hours := 0
  minutes := 0
  seconds := 0
  adcValue := 0
  lcd_custom_msg := [45, 45, 45, 0, 0, 0, 0, 0]
  send_report_flag := false
  button_latch := false
  l1 := []
  l2 := []
  txBuf := []
  b := [0, 0, 0, 0, 0, 0, 0, 0, 0]
  pc := Pc.idle
  trace := []

/-- Function `Timer0IntHandler` (lines 125-139). -/
def Timer0IntHandler (st : State) : State :=
  let st := { st with trace := st.trace ++ [Ev.timerIntClear] }
  let st := { st with seconds := wrapInt32 (st.seconds + 1) }
  let st :=
    if st.seconds ≥ 60 then
      let st := { st with seconds := 0 }
      let st := { st with minutes := wrapInt32 (st.minutes + 1) }
      if st.minutes ≥ 60 then
        let st := { st with minutes := 0 }
        let st := { st with hours := wrapInt32 (st.hours + 1) }
        if st.hours ≥ 24 then { st with hours := 0 } else st
      else st
    else st
  { st with send_report_flag := true }

/-- The handler applied `n` times. -/
def ticks : Nat → State → State
  | 0, st => st
  | n + 1, st => Timer0IntHandler (ticks n st)

/-- Macro `RS`, which is `GPIO_PIN_0`. -/
def RS : Nat := GPIO_PIN 0

/-- Macro `E`, which is `GPIO_PIN_1`. -/
def E : Nat := GPIO_PIN 1

/-- Mask `D4|D5|D6|D7` of the data pins. -/
def D4567 : Nat := GPIO_PIN 4 ||| GPIO_PIN 5 ||| GPIO_PIN 6 ||| GPIO_PIN 7

/-- Display connection of Odev4: everything on port B, RS on pin 0, E on
pin 1. -/
def wiring : Wiring where
  rsPort := Port.B
  rsPin := 0
  enPort := Port.B
  enPin := 1
  dataPort := Port.B

/-- Function `LCD_Pulse_Enable` (lines 63-68). -/
def LCD_Pulse_Enable : List Ev :=
  [Ev.gpioWrite Port.B E E, Ev.delay 40000, Ev.gpioWrite Port.B E 0, Ev.delay 40000]

/-- Function `LCD_Write_4Bit` (lines 71-76). -/
def LCD_Write_4Bit (data : Nat) : List Ev :=
  let data := u8 data
  [Ev.gpioWrite Port.B D4567 (u8 (data <<< 4))] ++ LCD_Pulse_Enable

/-- Function `LCD_Cmd` (lines 79-84). -/
def LCD_Cmd (cmd : Nat) : List Ev :=
  let cmd := u8 cmd
  [Ev.gpioWrite Port.B RS 0] ++ LCD_Write_4Bit (cmd >>> 4) ++ LCD_Write_4Bit (cmd &&& 0x0F) ++
    [Ev.delay 80000]

/-- Function `LCD_Data` (lines 87-92). -/
def LCD_Data (data : Nat) : List Ev :=
  let data := u8 data
  [Ev.gpioWrite Port.B RS RS] ++ LCD_Write_4Bit (data >>> 4) ++ LCD_Write_4Bit (data &&& 0x0F) ++
    [Ev.delay 80000]

/-- Function `LCD_Print` (lines 117-119): one `LCD_Data` per byte up to the first NUL
(or the end of the text). -/
def LCD_Print : List Nat → List Ev
  | [] => []
  | c :: cs => if c = 0 then [] else LCD_Data c ++ LCD_Print cs

/-- Button poll of the main loop (lines 211-216); `pin` is the value returned
by `GPIOPinRead(GPIO_PORTF_BASE, GPIO_PIN_4)`. -/
def pollButton (st : State) (pin : Nat) : State :=
  if pin = 0 then { st with button_latch := true } else st

/-- Reception of one byte `c` by `UARTCharGet` at the current control point of
the receive phase (lines 220-248). -/
def rxByte (st : State) (c : Nat) : State :=
  match st.pc with
  | Pc.idle =>
    let cmd := u8 c
    if cmd = 83 then { st with pc := Pc.timeWait 0 }
    else if cmd = 77 then { st with pc := Pc.msgWait 0 }
    else st
  | Pc.timeWait i =>
    let st := { st with b := st.b.set i (u8 c) }
    if i + 1 < 8 then { st with pc := Pc.timeWait (i + 1) }
    else
      let st := { st with b := st.b.set 8 0 }
      let st := { st with hours := atoi (cstrAt st.b 0) }
      let st := { st with minutes := atoi (cstrAt st.b 3) }
      let st := { st with seconds := atoi (cstrAt st.b 6) }
      { st with pc := Pc.idle }
  | Pc.msgWait i =>
    let st := { st with lcd_custom_msg := st.lcd_custom_msg.set i (u8 c) }
    if i + 1 < 3 then { st with pc := Pc.msgWait (i + 1) }
    else
      let st := { st with lcd_custom_msg := st.lcd_custom_msg.set 3 0 }
      { st with pc := Pc.idle }

/-- Reception of a sequence of bytes, one after the other. -/
def rxBytes (st : State) (cs : List Nat) : State := cs.foldl rxByte st

/-- Report, step 1 (lines 256-259): ADC trigger, wait, clear, read; `adc` is
the sample delivered by the converter. -/
def reportAdc (st : State) (adc : Nat) : State :=
  { st with
    trace := st.trace ++ [Ev.adcTrigger, Ev.adcIntClear, Ev.adcDataGet (u32 adc)]
    adcValue := u32 adc }

/-- Report, step 2 (lines 263-264): `btn` and the state with the latch
cleared. -/
def takeLatch (st : State) : Int × State :=
  ((if st.button_latch then 1 else 0), { st with button_latch := false })

/-- The telemetry text built by
`sprintf(txBuf, "%02d:%02d:%02d;%u;%d\r\n", hours, minutes, seconds, adcValue[0], btn)`
(line 267). -/
def telemetry (st : State) (btn : Int) : List Nat :=
  fmt_02d st.hours ++ [58] ++ fmt_02d st.minutes ++ [58] ++ fmt_02d st.seconds ++ [59] ++
    fmt_u st.adcValue ++ [59] ++ fmt_d btn ++ [13, 10]

/-- Transmission loop `while(*p) UARTCharPut(UART0_BASE, *p++)` (line 269). -/
def uartSend : List Nat → List Ev
  | [] => []
  | c :: cs => if c = 0 then [] else Ev.uartPut c :: uartSend cs

/-- Report, step 3 (lines 267-269). -/
def reportTelemetry (st : State) (btn : Int) : State :=
  let st := { st with txBuf := telemetry st btn }
  { st with trace := st.trace ++ uartSend st.txBuf }

/-- Report, step 4, first line (lines 273-275). -/
def reportLine1 (st : State) : State :=
  let st := { st with
    l1 := bytes "Time: " ++ fmt_02d st.hours ++ [58] ++ fmt_02d st.minutes ++ [58] ++
      fmt_02d st.seconds }
  { st with trace := st.trace ++ LCD_Cmd 0x80 ++ LCD_Print st.l1 }

/-- Report, step 4, second line (lines 278-280). -/
def reportLine2 (st : State) : State :=
  let st := { st with
    l2 := bytes "ADC:" ++ fmt_4u st.adcValue ++ bytes " Msg:" ++ cstrAt st.lcd_custom_msg 0 }
  { st with trace := st.trace ++ LCD_Cmd 0xC0 ++ LCD_Print st.l2 }

/-- Report phase of the main loop (lines 252-281). -/
def report (st : State) (adc : Nat) : State :=
  if st.send_report_flag then
    let st := { st with send_report_flag := false }
    let st := reportAdc st adc
    let (btn, st) := takeLatch st
    let st := reportTelemetry st btn
    let st := reportLine1 st
    reportLine2 st
  else st

/-- The bytes sent over the UART, in order. -/
def uartBytes (es : List Ev) : List Nat :=
  es.filterMap fun e => match e with
    | Ev.uartPut c => some c
    | _ => none

/-- Function `LCD_Init` (lines 95-114). -/
def LCD_Init : List Ev :=
  [Ev.periphEnable Port.B, Ev.pinTypeOutput Port.B 0xFF, Ev.delay 1000000] ++
  LCD_Write_4Bit 0x03 ++ [Ev.delay 100000] ++
  LCD_Write_4Bit 0x03 ++ [Ev.delay 100000] ++
  LCD_Write_4Bit 0x03 ++ [Ev.delay 100000] ++
  LCD_Write_4Bit 0x02 ++
  LCD_Cmd 0x28 ++ LCD_Cmd 0x0C ++ LCD_Cmd 0x06 ++ LCD_Cmd 0x01 ++
  [Ev.delay 200000]

/-- The clock fields are in range: hours in 0..23, minutes and seconds in
0..59. -/
def InRange (st : State) : Prop :=
  0 ≤ st.hours ∧ st.hours < 24 ∧ 0 ≤ st.minutes ∧ st.minutes < 60 ∧
  0 ≤ st.seconds ∧ st.seconds < 60

instance (st : State) : Decidable (InRange st) := by
  unfold InRange; infer_instance

/-- The time text `%02d:%02d:%02d` of the current clock, as formatted by the
two `sprintf` calls of the report (lines 267 and 273). -/
def timeText (st : State) : List Nat :=
  fmt_02d st.hours ++ [58] ++ fmt_02d st.minutes ++ [58] ++ fmt_02d st.seconds

/-- One advance of the main context (`while (1)` of `main`, lines 207-282).
At the top of the loop (`Pc.idle`) the button is polled with pin value `pin`;
`rx` is `none` when `UARTCharsAvail` answers false, and `some c` when the byte
`c` is available and read.  The report phase is reached only when the receive
phase is left, that is when no command is being read.  Inside one of the two
`while(!UARTCharsAvail(UART0_BASE));` loops (`Pc.timeWait`, `Pc.msgWait`) the
main context does nothing until a byte arrives. -/
def mainStep (st : State) (pin : Nat) (rx : Option Nat) (adc : Nat) : State :=
  match st.pc with
  | Pc.idle =>
    let st := pollButton st pin
    match rx with
    | none => report st adc
    | some c =>
      let st := rxByte st c
      if st.pc = Pc.idle then report st adc else st
  | _ =>
    match rx with
    | none => st
    | some c =>
      let st := rxByte st c
      if st.pc = Pc.idle then report st adc else st

/-- What happens next in the system: the timer interrupt fires, or the main
context advances. -/
inductive Event where
  | tick
  | main (pin : Nat) (rx : Option Nat) (adc : Nat)
  deriving DecidableEq, Repr

/-- Effect of one event. -/
def step (st : State) : Event → State
  | Event.tick => Timer0IntHandler st
  | Event.main pin rx adc => mainStep st pin rx adc

/-- Effect of a sequence of events. -/
def run (st : State) (evs : List Event) : State := evs.foldl step st

/-- Report phase (lines 252-281) with the timer interrupt firing between its
statements: `t i` ticks fire after statement `i` (0: flag reset, 1: ADC read,
2: latch read and reset, 3: telemetry formatted and sent, 4: first display
line).  Nothing in the report disables the interrupt. -/
def reportWithTicks (st : State) (adc : Nat) (t : Nat → Nat) : State :=
  if st.send_report_flag then
    let st := { st with send_report_flag := false }
    let st := ticks (t 0) st
    let st := reportAdc st adc
    let st := ticks (t 1) st
    let (btn, st) := takeLatch st
    let st := ticks (t 2) st
    let st := reportTelemetry st btn
    let st := ticks (t 3) st
    let st := reportLine1 st
    let st := ticks (t 4) st
    reportLine2 st
  else st


end Odev4


/-! ## Odev2: digital clock -/

namespace Odev2

/-- Display connection of Odev2: RS on PE1, EN on PE3, data on PB4..PB7. -/
def wiring : Wiring where
  rsPort := Port.E
  rsPin := 1
  enPort := Port.E
  enPin := 3
  dataPort := Port.B

/-- Macro `LCD_RS_PIN`, which is `GPIO_PIN_1`. -/
def LCD_RS_PIN : Nat := GPIO_PIN 1

/-- Macro `LCD_EN_PIN`, which is `GPIO_PIN_3`. -/
def LCD_EN_PIN : Nat := GPIO_PIN 3

/-- Macro `LCD_DATA_PINS`, pins 4 to 7. -/
def LCD_DATA_PINS : Nat := GPIO_PIN 4 ||| GPIO_PIN 5 ||| GPIO_PIN 6 ||| GPIO_PIN 7

/-- Macro `LCD_CMD_SET_DDRAM`. -/
def LCD_CMD_SET_DDRAM : Nat := 0x80

/-- Function `delay_us` (lines 57-61); `clk` is the value of `SysCtlClockGet()`. -/
def delay_us (clk us : Nat) : List Ev :=
  [Ev.delay (u32 (u32 clk / 3000000 * u32 us))]

/-- Function `LCD_Pulse_EN` (lines 69-75). -/
def LCD_Pulse_EN (clk : Nat) : List Ev :=
  [Ev.gpioWrite Port.E LCD_EN_PIN LCD_EN_PIN] ++ delay_us clk 10 ++
  [Ev.gpioWrite Port.E LCD_EN_PIN 0] ++ delay_us clk 10

/-- Function `LCD_Send_Nibble` (lines 79-85). -/
def LCD_Send_Nibble (clk nibble : Nat) : List Ev :=
  let nibble := u8 nibble
  [Ev.gpioWrite Port.B LCD_DATA_PINS (u8 (nibble <<< 4))] ++ LCD_Pulse_EN clk

/-- Function `LCD_Send_Byte` (lines 89-105). -/
def LCD_Send_Byte (clk byte : Nat) ( is_data : Bool) : List Ev :=
  let byte := u8 byte
  (if is_data then [Ev.gpioWrite Port.E LCD_RS_PIN LCD_RS_PIN]
   else [Ev.gpioWrite Port.E LCD_RS_PIN 0]) ++
  LCD_Send_Nibble clk (byte >>> 4) ++
  LCD_Send_Nibble clk (byte &&& 0x0F) ++
  delay_us clk 50

/-- Function `LCD_Send_Cmd` (line 108). -/
def LCD_Send_Cmd (clk cmd : Nat) : List Ev := LCD_Send_Byte clk cmd false

/-- Function `LCD_Send_Data` (line 109). -/
def LCD_Send_Data (clk data : Nat) : List Ev := LCD_Send_Byte clk data true

/-- Function `LCD_SetCursor` (lines 129-138). -/
def LCD_SetCursor (clk col row : Nat) : List Ev :=
  let col := u8 col
  let row := u8 row
  let cmd := u8 (LCD_CMD_SET_DDRAM + col)
  let cmd := if row = 1 then u8 (cmd + 0x40) else cmd
  LCD_Send_Cmd clk cmd

/-- Global variables of `Odev2_Digital_Clock/main.c` and the trace of
hardware events. -/
structure State where
  g_ui32Hours : Nat
  g_ui32Minutes : Nat
  g_ui32Seconds : Nat
  g_bTimeChanged : Bool
  trace : List Ev
  deriving DecidableEq, Repr

/-- Initial values of the globals (lines 46-49). -/
def initState : State where
  g_ui32Hours := 12
  g_ui32Minutes := 0
  g_ui32Seconds := 0
  g_bTimeChanged := true
  trace := []

/-- Function `Timer0_ISR` (lines 178-202). -/
def Timer0_ISR (st : State) : State :=
  let st := { st with trace := st.trace ++ [Ev.timerIntClear] }
  let st := { st with g_ui32Seconds := u32 (st.g_ui32Seconds + 1) }
  let st :=
    if st.g_ui32Seconds = 60 then
      let st := { st with g_ui32Seconds := 0 }
      let st := { st with g_ui32Minutes := u32 (st.g_ui32Minutes + 1) }
      if st.g_ui32Minutes = 60 then
        let st := { st with g_ui32Minutes := 0 }
        let st := { st with g_ui32Hours := u32 (st.g_ui32Hours + 1) }
        if st.g_ui32Hours = 24 then { st with g_ui32Hours := 0 } else st
      else st
    else st
  { st with g_bTimeChanged := true }

/-- The handler applied `n` times. -/
def ticks : Nat → State → State
  | 0, st => st
  | n + 1, st => Timer0_ISR (ticks n st)

/-- The clock fields are in range. -/
def InRange (st : State) : Prop :=
  st.g_ui32Hours < 24 ∧ st.g_ui32Minutes < 60 ∧ st.g_ui32Seconds < 60

instance (st : State) : Decidable (InRange st) := by
  unfold InRange; infer_instance

end Odev2

/-! ## Odev3: clock with ADC read-out -/

namespace Odev3

/-- Display connection of Odev3: RS on PE1, EN on PE3, data on PB4..PB7. -/
def wiring : Wiring where
  rsPort := Port.E
  rsPin := 1
  enPort := Port.E
  enPin := 3
  dataPort := Port.B

/-- Macro `LCD_DATA_PINS`, pins 4 to 7. -/
def LCD_DATA_PINS : Nat := GPIO_PIN 4 ||| GPIO_PIN 5 ||| GPIO_PIN 6 ||| GPIO_PIN 7

/-- Function `delay_us` (lines 56-60); `clk` is the value of `SysCtlClockGet()`. -/
def delay_us (clk us : Nat) : List Ev :=
  [Ev.delay (u32 (u32 clk / 3000000 * u32 us))]

/-- Function `LCD_Pulse_EN` (lines 68-75). -/
def LCD_Pulse_EN (clk : Nat) : List Ev :=
  [Ev.gpioWrite Port.E (GPIO_PIN 3) (GPIO_PIN 3)] ++ delay_us clk 10 ++
  [Ev.gpioWrite Port.E (GPIO_PIN 3) 0] ++ delay_us clk 10

/-- Function `LCD_Send_Nibble` (lines 78-84). -/
def LCD_Send_Nibble (clk nibble : Nat) : List Ev :=
  let nibble := u8 nibble
  [Ev.gpioWrite Port.B LCD_DATA_PINS (u8 (nibble <<< 4))] ++ LCD_Pulse_EN clk

/-- Function `LCD_Send_Byte` (lines 88-101). -/
def LCD_Send_Byte (clk byte : Nat) ( is_data : Bool) : List Ev :=
  let byte := u8 byte
  [Ev.gpioWrite Port.E (GPIO_PIN 1) (if is_data then GPIO_PIN 1 else 0)] ++
  LCD_Send_Nibble clk (byte >>> 4) ++
  LCD_Send_Nibble clk (byte &&& 0x0F) ++
  delay_us clk 50

/-- Function `LCD_SetCursor` (lines 135-140): the sum is computed in `int` and converted
to `uint8_t` by the call. -/
def LCD_SetCursor (clk col row : Nat) : List Ev :=
  let col := u8 col
  let row := u8 row
  LCD_Send_Byte clk (0x80 + (row * 0x40) + col) false

/-- Global variables of `Odev3_LCD_ADC/main.c` and the trace of hardware
events. -/
structure State where
  g_ui32Hours : Nat
  g_ui32Minutes : Nat
  g_ui32Seconds : Nat
  g_bUpdateScreen : Bool
  trace : List Ev
  deriving DecidableEq, Repr

/-- Initial values of the globals (lines 43-49). -/
def initState : State where
  g_ui32Hours := 12
  g_ui32Minutes := 0
  g_ui32Seconds := 0
  g_bUpdateScreen := true
  trace := []

/-- Function `Timer0_ISR` (lines 155-177). -/
def Timer0_ISR (st : State) : State :=
  let st := { st with trace := st.trace ++ [Ev.timerIntClear] }
  let st := { st with g_ui32Seconds := u32 (st.g_ui32Seconds + 1) }
  let st : State :=
    if st.g_ui32Seconds > 59 then
      let st := { st with g_ui32Seconds := 0 }
      { st with g_ui32Minutes := u32 (st.g_ui32Minutes + 1) }
    else st
  let st : State :=
    if st.g_ui32Minutes > 59 then
      let st := { st with g_ui32Minutes := 0 }
      { st with g_ui32Hours := u32 (st.g_ui32Hours + 1) }
    else st
  let st : State :=
    if st.g_ui32Hours > 23 then { st with g_ui32Hours := 0 } else st
  { st with g_bUpdateScreen := true }

/-- The handler applied `n` times. -/
def ticks : Nat → State → State
  | 0, st => st
  | n + 1, st => Timer0_ISR (ticks n st)

/-- The clock fields are in range. -/
def InRange (st : State) : Prop :=
  st.g_ui32Hours < 24 ∧ st.g_ui32Minutes < 60 ∧ st.g_ui32Seconds < 60

instance (st : State) : Decidable (InRange st) := by
  unfold InRange; infer_instance

end Odev3


/-! ## Odev1: LCD driver -/

namespace Odev1

/-- Display connection of Odev1: RS on PE1, EN on PE3, data on PB4..PB7. -/
def wiring : Wiring where
  rsPort := Port.E
  rsPin := 1
  enPort := Port.E
  enPin := 3
  dataPort := Port.B

/-- Macro `RS`, which is `GPIO_PIN_1`. -/
def RS : Nat := GPIO_PIN 1

/-- Macro `RW`, which is `GPIO_PIN_2`. -/
def RW : Nat := GPIO_PIN 2

/-- Macro `EN`, which is `GPIO_PIN_3`. -/
def EN : Nat := GPIO_PIN 3

/-- Mask `D7 | D6 | D5 | D4` of the data pins. -/
def D7654 : Nat := GPIO_PIN 7 ||| GPIO_PIN 6 ||| GPIO_PIN 5 ||| GPIO_PIN 4

/-- Function `komut_yaz` (`lcd.h`, lines 113-124). -/
def komut_yaz : List Ev :=
  [Ev.gpioWrite Port.E (RS ||| RW ||| EN) 0x08, Ev.delay 10000,
   Ev.gpioWrite Port.E (RS ||| RW ||| EN) 0x00]

/-- Function `satir_sutun` (`lcd.h`, lines 131-160).  `total` is a `char`: it
keeps the low eight bits of the sum, and the two masked values written to the
data pins depend on those bits only. -/
def satir_sutun (satir sutun : Nat) : List Ev :=
  let satir := u8 satir
  let sutun := u8 sutun
  let satir := if satir = 1 then 0x7F else satir
  let satir := if satir = 2 then 0x0BF else satir
  let total := u8 (satir + sutun)
  [Ev.gpioWrite Port.E (RS ||| RW ||| EN) 0x00] ++
  [Ev.gpioWrite Port.B D7654 (u8 (0xF0 &&& total))] ++ komut_yaz ++
  [Ev.gpioWrite Port.B D7654 (u8 ((total &&& 0x0F) <<< 4))] ++ komut_yaz

end Odev1


/-! ## Theorems -/

/-! ### Helper lemmas -/

theorem wrapInt32_small (x : Int) (h1 : -2147483648 ≤ x) (h2 : x < 2147483648) :
    wrapInt32 x = x := by
  unfold wrapInt32; omega

theorem list_length_eight {α : Type} (l : List α) (h : l.length = 8) :
    ∃ a0 a1 a2 a3 a4 a5 a6 a7, l = [a0, a1, a2, a3, a4, a5, a6, a7] := by
  match l, h with
  | [a0, a1, a2, a3, a4, a5, a6, a7], _ => exact ⟨a0, a1, a2, a3, a4, a5, a6, a7, rfl⟩

theorem list_length_nine {α : Type} (l : List α) (h : l.length = 9) :
    ∃ a0 a1 a2 a3 a4 a5 a6 a7 a8, l = [a0, a1, a2, a3, a4, a5, a6, a7, a8] := by
  match l, h with
  | [a0, a1, a2, a3, a4, a5, a6, a7, a8], _ => exact ⟨a0, a1, a2, a3, a4, a5, a6, a7, a8, rfl⟩

theorem atoi_two_digits (a b : Nat) (ha : a < 10) (hb : b < 10) (t : List Nat)
    (ht : ∀ c ∈ t.head?, isdigit c = false) :
    atoi ((48 + a) :: (48 + b) :: t) = ((10 * a + b : Nat) : Int) := by
  have h1 : isspace (48 + a) = false := by simp [isspace]; omega
  have h2 : isdigit (48 + a) = true := by simp [isdigit]; omega
  have h3 : isdigit (48 + b) = true := by simp [isdigit]; omega
  have h4 : atoiDigits t (10 * a + b) = 10 * a + b := by
    cases t with
    | nil => rfl
    | cons c cs =>
      have := ht c (by simp)
      simp [atoiDigits, this]
  have h5 : ¬ (48 + a = 45) := by omega
  have h6 : ¬ (48 + a = 43) := by omega
  simp only [atoi, List.dropWhile, h1, h5, h6, if_false, atoiDigits, h2, h3, if_true]
  have h7 : (0 * 10 + (48 + a - 48)) * 10 + (48 + b - 48) = 10 * a + b := by omega
  rw [h7, h4]
  apply wrapInt32_small <;> omega

namespace Odev4

theorem Timer0IntHandler_seconds (st : State) :
    (Timer0IntHandler st).seconds =
      if wrapInt32 (st.seconds + 1) ≥ 60 then 0 else wrapInt32 (st.seconds + 1) := by
  unfold Timer0IntHandler
  dsimp only
  split_ifs <;> rfl

theorem Timer0IntHandler_minutes (st : State) :
    (Timer0IntHandler st).minutes =
      if wrapInt32 (st.seconds + 1) ≥ 60 then
        (if wrapInt32 (st.minutes + 1) ≥ 60 then 0 else wrapInt32 (st.minutes + 1))
      else st.minutes := by
  unfold Timer0IntHandler
  dsimp only
  split_ifs <;> rfl

theorem Timer0IntHandler_hours (st : State) :
    (Timer0IntHandler st).hours =
      if wrapInt32 (st.seconds + 1) ≥ 60 ∧ wrapInt32 (st.minutes + 1) ≥ 60 then
        (if wrapInt32 (st.hours + 1) ≥ 24 then 0 else wrapInt32 (st.hours + 1))
      else st.hours := by
  unfold Timer0IntHandler
  dsimp only
  split_ifs <;> first | rfl | (exfalso; tauto)

/-- One tick advances a clock showing second `s` of the day to second `s + 1`. -/
theorem Timer0IntHandler_clock (st : State) (s : Nat)
    (hh : st.hours = ((s / 3600 % 24 : Nat) : Int))
    (hm : st.minutes = ((s / 60 % 60 : Nat) : Int))
    (hs : st.seconds = ((s % 60 : Nat) : Int)) :
    (Timer0IntHandler st).hours = (((s + 1) / 3600 % 24 : Nat) : Int) ∧
    (Timer0IntHandler st).minutes = (((s + 1) / 60 % 60 : Nat) : Int) ∧
    (Timer0IntHandler st).seconds = (((s + 1) % 60 : Nat) : Int) := by
  rw [Timer0IntHandler_hours, Timer0IntHandler_minutes, Timer0IntHandler_seconds]
  rw [wrapInt32_small (st.seconds + 1) (by omega) (by omega),
      wrapInt32_small (st.minutes + 1) (by omega) (by omega),
      wrapInt32_small (st.hours + 1) (by omega) (by omega)]
  rw [hh, hm, hs]
  refine ⟨?_, ?_, ?_⟩
  · split_ifs <;> omega
  · split_ifs <;> omega
  · split_ifs <;> omega

theorem ticks_clock (st : State)
    (h0 : st.hours = 0 ∧ st.minutes = 0 ∧ st.seconds = 0) (s : Nat) :
    (ticks s st).hours = ((s / 3600 % 24 : Nat) : Int) ∧
    (ticks s st).minutes = ((s / 60 % 60 : Nat) : Int) ∧
    (ticks s st).seconds = ((s % 60 : Nat) : Int) := by
  induction s with
  | zero => simpa [ticks] using h0
  | succ n ih =>
    obtain ⟨ih1, ih2, ih3⟩ := ih
    exact Timer0IntHandler_clock (ticks n st) n ih1 ih2 ih3

/-- C1: for every `s` with `0 <= s < 86400`, applying the tick handler
`Timer0IntHandler` `s` times to a clock showing `(0,0,0)` yields exactly
`(s/3600 % 24, s/60 % 60, s % 60)`. -/
theorem ticks_from_midnight (s : Nat) (hs : s < 86400) (st : State)
    (h0 : st.hours = 0 ∧ st.minutes = 0 ∧ st.seconds = 0) :
    (ticks s st).hours = ((s / 3600 % 24 : Nat) : Int) ∧
    (ticks s st).minutes = ((s / 60 % 60 : Nat) : Int) ∧
    (ticks s st).seconds = ((s % 60 : Nat) : Int) := by
  have _ := hs
  exact ticks_clock st h0 s

theorem ticks_from_midnight_witness :
    (3661 < 86400 ∧ initState.hours = 0 ∧ initState.minutes = 0 ∧ initState.seconds = 0) ∧
    (ticks 3661 initState).hours = 1 ∧
    (ticks 3661 initState).minutes = 1 ∧
    (ticks 3661 initState).seconds = 1 :=
  ⟨⟨by decide, rfl, rfl, rfl⟩, ticks_from_midnight 3661 (by decide) initState ⟨rfl, rfl, rfl⟩⟩

theorem rxBytes_time (st : State) (hpc : st.pc = Pc.idle) (hb : st.b.length = 9)
    (x0 x1 x2 x3 x4 x5 x6 x7 : Nat) :
    rxBytes st [83, x0, x1, x2, x3, x4, x5, x6, x7] =
      { st with
        b := [u8 x0, u8 x1, u8 x2, u8 x3, u8 x4, u8 x5, u8 x6, u8 x7, 0]
        hours := atoi (cstrAt [u8 x0, u8 x1, u8 x2, u8 x3, u8 x4, u8 x5, u8 x6, u8 x7, 0] 0)
        minutes := atoi (cstrAt [u8 x0, u8 x1, u8 x2, u8 x3, u8 x4, u8 x5, u8 x6, u8 x7, 0] 3)
        seconds := atoi (cstrAt [u8 x0, u8 x1, u8 x2, u8 x3, u8 x4, u8 x5, u8 x6, u8 x7, 0] 6)
        pc := Pc.idle } := by
  obtain ⟨a0, a1, a2, a3, a4, a5, a6, a7, a8, hl⟩ := list_length_nine st.b hb
  simp [rxBytes, rxByte, hpc, hl, u8]

/-- C2: for every payload `d0 d1 ':' d2 d3 ':' d4 d5` of ASCII digits, the
command handler fed `'S'` and the payload sets the clock to
`(10*d0+d1, 10*d2+d3, 10*d4+d5)` (no range check) once the 9th byte has been
consumed, and after every shorter prefix of the 9 bytes the clock is the one
it was before. -/
theorem set_time_command (st : State) (hpc : st.pc = Pc.idle) (hb : st.b.length = 9)
    (d0 d1 d2 d3 d4 d5 : Nat)
    (h0 : d0 < 10) (h1 : d1 < 10) (h2 : d2 < 10) (h3 : d3 < 10) (h4 : d4 < 10) (h5 : d5 < 10) :
    ((rxBytes st [83, 48 + d0, 48 + d1, 58, 48 + d2, 48 + d3, 58, 48 + d4, 48 + d5]).hours
        = ((10 * d0 + d1 : Nat) : Int) ∧
     (rxBytes st [83, 48 + d0, 48 + d1, 58, 48 + d2, 48 + d3, 58, 48 + d4, 48 + d5]).minutes
        = ((10 * d2 + d3 : Nat) : Int) ∧
     (rxBytes st [83, 48 + d0, 48 + d1, 58, 48 + d2, 48 + d3, 58, 48 + d4, 48 + d5]).seconds
        = ((10 * d4 + d5 : Nat) : Int)) ∧
    ∀ k, k < 9 →
      (rxBytes st
        ([83, 48 + d0, 48 + d1, 58, 48 + d2, 48 + d3, 58, 48 + d4, 48 + d5].take k)).hours
        = st.hours ∧
      (rxBytes st
        ([83, 48 + d0, 48 + d1, 58, 48 + d2, 48 + d3, 58, 48 + d4, 48 + d5].take k)).minutes
        = st.minutes ∧
      (rxBytes st
        ([83, 48 + d0, 48 + d1, 58, 48 + d2, 48 + d3, 58, 48 + d4, 48 + d5].take k)).seconds
        = st.seconds := by
  have e0 : u8 (48 + d0) = 48 + d0 := by unfold u8; omega
  have e1 : u8 (48 + d1) = 48 + d1 := by unfold u8; omega
  have e2 : u8 (48 + d2) = 48 + d2 := by unfold u8; omega
  have e3 : u8 (48 + d3) = 48 + d3 := by unfold u8; omega
  have e4 : u8 (48 + d4) = 48 + d4 := by unfold u8; omega
  have e5 : u8 (48 + d5) = 48 + d5 := by unfold u8; omega
  have e58 : u8 58 = 58 := rfl
  have n0 : ¬ (48 + d0 = 0) := by omega
  have n1 : ¬ (48 + d1 = 0) := by omega
  have n2 : ¬ (48 + d2 = 0) := by omega
  have n3 : ¬ (48 + d3 = 0) := by omega
  have n4 : ¬ (48 + d4 = 0) := by omega
  have n5 : ¬ (48 + d5 = 0) := by omega
  refine ⟨?_, ?_⟩
  · rw [rxBytes_time st hpc hb, e0, e1, e2, e3, e4, e5, e58]
    have c0 : cstrAt [48 + d0, 48 + d1, 58, 48 + d2, 48 + d3, 58, 48 + d4, 48 + d5, 0] 0
        = [48 + d0, 48 + d1, 58, 48 + d2, 48 + d3, 58, 48 + d4, 48 + d5] := by
      simp [cstrAt, List.takeWhile, n0, n1, n2, n3, n4, n5]
    have c3 : cstrAt [48 + d0, 48 + d1, 58, 48 + d2, 48 + d3, 58, 48 + d4, 48 + d5, 0] 3
        = [48 + d2, 48 + d3, 58, 48 + d4, 48 + d5] := by
      simp [cstrAt, List.takeWhile, n2, n3, n4, n5]
    have c6 : cstrAt [48 + d0, 48 + d1, 58, 48 + d2, 48 + d3, 58, 48 + d4, 48 + d5, 0] 6
        = [48 + d4, 48 + d5] := by
      simp [cstrAt, List.takeWhile, n4, n5]
    simp only [c0, c3, c6]
    refine ⟨atoi_two_digits d0 d1 h0 h1 _ ?_, atoi_two_digits d2 d3 h2 h3 _ ?_,
      atoi_two_digits d4 d5 h4 h5 _ ?_⟩ <;> simp [isdigit]
  · intro k hk
    interval_cases k <;> simp [rxBytes, rxByte, hpc, u8]

theorem set_time_command_witness :
    (initState.pc = Pc.idle ∧ initState.b.length = 9) ∧
    (rxBytes initState (bytes "S12:30:45")).hours = 12 ∧
    (rxBytes initState (bytes "S12:30:45")).minutes = 30 ∧
    (rxBytes initState (bytes "S12:30:45")).seconds = 45 :=
  ⟨⟨rfl, rfl⟩,
   (set_time_command initState rfl rfl 1 2 3 0 4 5
      (by decide) (by decide) (by decide) (by decide) (by decide) (by decide)).1⟩

/-- C3: for every three bytes `x`, `y`, `z`, the command handler fed `'M'`, `x`,
`y`, `z` leaves `lcd_custom_msg` holding `x`, `y`, `z` and a NUL terminator
after the 4th byte, leaves the clock unchanged, and a following 5th byte that
is neither `'S'` nor `'M'` leaves the message unchanged. -/
theorem set_message_command (st : State) (hpc : st.pc = Pc.idle)
    (hm : st.lcd_custom_msg.length = 8) (x y z : Nat)
    (hx : x < 256) (hy : y < 256) (hz : z < 256) :
    (rxBytes st [77, x, y, z]).lcd_custom_msg = [x, y, z, 0] ++ st.lcd_custom_msg.drop 4 ∧
    (rxBytes st [77, x, y, z]).hours = st.hours ∧
    (rxBytes st [77, x, y, z]).minutes = st.minutes ∧
    (rxBytes st [77, x, y, z]).seconds = st.seconds ∧
    ∀ c, c < 256 → c ≠ 83 → c ≠ 77 →
      (rxBytes st [77, x, y, z, c]).lcd_custom_msg = (rxBytes st [77, x, y, z]).lcd_custom_msg := by
  obtain ⟨a0, a1, a2, a3, a4, a5, a6, a7, hl⟩ := list_length_eight st.lcd_custom_msg hm
  have ex : x % 256 = x := Nat.mod_eq_of_lt hx
  have ey : y % 256 = y := Nat.mod_eq_of_lt hy
  have ez : z % 256 = z := Nat.mod_eq_of_lt hz
  refine ⟨?_, ?_, ?_, ?_, ?_⟩
  · simp [rxBytes, rxByte, hpc, hl, u8, ex, ey, ez]
  · simp [rxBytes, rxByte, hpc, u8]
  · simp [rxBytes, rxByte, hpc, u8]
  · simp [rxBytes, rxByte, hpc, u8]
  · intro c hc h83 h77
    have ec : c % 256 = c := Nat.mod_eq_of_lt hc
    simp [rxBytes, rxByte, hpc, u8, ec, h83, h77]

theorem set_message_command_witness :
    (initState.pc = Pc.idle ∧ initState.lcd_custom_msg.length = 8) ∧
    (rxBytes initState (bytes "MXYZ")).lcd_custom_msg = bytes "XYZ" ++ [0, 0, 0, 0, 0] ∧
    (rxBytes initState (bytes "MXYZq")).lcd_custom_msg
      = (rxBytes initState (bytes "MXYZ")).lcd_custom_msg ∧
    cstrAt (rxBytes initState (bytes "MXYZq")).lcd_custom_msg 0 = bytes "XYZ" :=
  ⟨⟨rfl, rfl⟩,
   (set_message_command initState rfl rfl 88 89 90 (by decide) (by decide) (by decide)).1,
   (set_message_command initState rfl rfl 88 89 90 (by decide) (by decide) (by decide)).2.2.2.2
      113 (by decide) (by decide) (by decide),
   by decide⟩

/-- C4: a leading byte other than `'S'` and `'M'` is consumed alone and leaves
the whole state (clock, message, button latch, report flag) unchanged, so the
bytes that follow it are handled as if it had not been sent. -/
theorem unknown_command_discarded (st : State) (hpc : st.pc = Pc.idle) (c : Nat)
    (hc : c < 256) (h83 : c ≠ 83) (h77 : c ≠ 77) :
    rxByte st c = st ∧ ∀ rest, rxBytes st (c :: rest) = rxBytes st rest := by
  have ec : c % 256 = c := Nat.mod_eq_of_lt hc
  have h : rxByte st c = st := by simp [rxByte, hpc, u8, ec, h83, h77]
  exact ⟨h, fun rest => by simp [rxBytes, h]⟩

theorem unknown_command_discarded_witness :
    (initState.pc = Pc.idle ∧ 113 < 256 ∧ 113 ≠ 83 ∧ 113 ≠ 77) ∧
    rxByte initState 113 = initState ∧
    rxBytes initState (113 :: bytes "S12:30:45") = rxBytes initState (bytes "S12:30:45") :=
  ⟨⟨rfl, by decide, by decide, by decide⟩,
   (unknown_command_discarded initState rfl 113 (by decide) (by decide) (by decide)).1,
   (unknown_command_discarded initState rfl 113 (by decide) (by decide) (by decide)).2 _⟩

theorem pollButton_foldl_latch (samples : List Nat) (st : State) :
    (samples.foldl pollButton st).button_latch = (st.button_latch || decide (0 ∈ samples)) := by
  induction samples generalizing st with
  | nil => simp
  | cons p ps ih =>
    rw [List.foldl_cons, ih]
    by_cases hp : p = 0
    · simp [pollButton, hp]
    · have : ¬ (0 = p) := fun h => hp h.symm
      simp [pollButton, hp, this]

/-- C5: starting from a cleared latch, after any finite sequence of raw button
samples (pressed means the pin reads 0) the value consumed by the next report
is 1 if and only if at least one sample was pressed (and 0 otherwise), the
latch is false afterwards, and a second take with no pressed sample in between
yields 0. -/
theorem button_latch_reported_once (st : State) (hl : st.button_latch = false)
    (samples : List Nat) :
    ((takeLatch (samples.foldl pollButton st)).1 = 1 ↔ ∃ p ∈ samples, p = 0) ∧
    ((takeLatch (samples.foldl pollButton st)).1 = 0 ↔ ¬ ∃ p ∈ samples, p = 0) ∧
    (takeLatch (samples.foldl pollButton st)).2.button_latch = false ∧
    ∀ later : List Nat, (∀ p ∈ later, p ≠ 0) →
      (takeLatch (later.foldl pollButton (takeLatch (samples.foldl pollButton st)).2)).1 = 0 := by
  refine ⟨?_, ?_, rfl, ?_⟩
  · simp only [takeLatch, pollButton_foldl_latch, hl]
    by_cases h : 0 ∈ samples <;> simp [h]
  · simp only [takeLatch, pollButton_foldl_latch, hl]
    by_cases h : 0 ∈ samples <;> simp [h]
  · intro later hlater
    have h : ¬ (0 ∈ later) := fun h0 => hlater 0 h0 rfl
    simp [takeLatch, pollButton_foldl_latch, h]

theorem button_latch_reported_once_witness :
    initState.button_latch = false ∧
    (takeLatch ([0, 16, 16, 16, 16, 16].foldl pollButton initState)).1 = 1 ∧
    (takeLatch (takeLatch ([0, 16, 16, 16, 16, 16].foldl pollButton initState)).2).1 = 0 :=
  ⟨rfl,
   (button_latch_reported_once initState rfl [0, 16, 16, 16, 16, 16]).1.2 ⟨0, by simp, rfl⟩,
   (button_latch_reported_once initState rfl [0, 16, 16, 16, 16, 16]).2.2.2 [] (by simp)⟩

end Odev4

/-! ### Display driver -/

set_option maxRecDepth 100000 in
theorem nibble_shift_u8 : ∀ b, b < 256 →
    u8 (u8 (b >>> 4) <<< 4) = (b >>> 4) <<< 4 ∧ u8 (u8 (b &&& 0x0F) <<< 4) = (b &&& 0x0F) <<< 4 ∧
    16 * (b >>> 4) + (b &&& 0x0F) = b := by
  decide

set_option maxRecDepth 100000 in
theorem nibbleBits_shift : ∀ b, b < 256 →
    nibbleBits ((b >>> 4) <<< 4) = b >>> 4 ∧ nibbleBits ((b &&& 0x0F) <<< 4) = b &&& 0x0F := by
  decide

/-- What the display latches from a byte transfer of Odev4 (`LCD_Cmd`,
`LCD_Data`) writing `r` to register-select and `v1`, `v2` to the data pins. -/
theorem Odev4.latched_two_nibbles (s : Pins) (r v1 v2 : Nat) :
    lcdLatched Odev4.wiring s
      [Ev.gpioWrite Port.B 1 r,
       Ev.gpioWrite Port.B 240 v1, Ev.gpioWrite Port.B 2 2, Ev.delay 40000,
       Ev.gpioWrite Port.B 2 0, Ev.delay 40000,
       Ev.gpioWrite Port.B 240 v2, Ev.gpioWrite Port.B 2 2, Ev.delay 40000,
       Ev.gpioWrite Port.B 2 0, Ev.delay 40000, Ev.delay 80000]
      = [(r.testBit 0, nibbleBits v1), (r.testBit 0, nibbleBits v2)] := by
  simp only [lcdLatched, applyEv, gpioApply, Odev4.wiring, dataNibble, nibbleBits]
  simp +decide

/-- Register-select level after every event of a byte transfer of Odev4. -/
theorem Odev4.rs_two_nibbles (s : Pins) (r v1 v2 : Nat) :
    ∀ p ∈ snapshots s
      [Ev.gpioWrite Port.B 1 r,
       Ev.gpioWrite Port.B 240 v1, Ev.gpioWrite Port.B 2 2, Ev.delay 40000,
       Ev.gpioWrite Port.B 2 0, Ev.delay 40000,
       Ev.gpioWrite Port.B 240 v2, Ev.gpioWrite Port.B 2 2, Ev.delay 40000,
       Ev.gpioWrite Port.B 2 0, Ev.delay 40000, Ev.delay 80000],
      p Port.B 0 = r.testBit 0 := by
  intro p hp
  simp only [snapshots, List.mem_cons, List.mem_nil_iff, or_false] at hp
  rcases hp with h | h | h | h | h | h | h | h | h | h | h | h <;>
    (subst h; simp +decide [applyEv, gpioApply])

/-- What the display latches from a byte transfer of Odev2 or Odev3
(`LCD_Send_Byte`). -/
theorem latched_two_nibbles_PE (s : Pins) (r v1 v2 t1 t2 t3 t4 t5 : Nat) :
    lcdLatched
      { rsPort := Port.E, rsPin := 1, enPort := Port.E, enPin := 3, dataPort := Port.B } s
      [Ev.gpioWrite Port.E 2 r,
       Ev.gpioWrite Port.B 240 v1, Ev.gpioWrite Port.E 8 8, Ev.delay t1,
       Ev.gpioWrite Port.E 8 0, Ev.delay t2,
       Ev.gpioWrite Port.B 240 v2, Ev.gpioWrite Port.E 8 8, Ev.delay t3,
       Ev.gpioWrite Port.E 8 0, Ev.delay t4, Ev.delay t5]
      = [(r.testBit 1, nibbleBits v1), (r.testBit 1, nibbleBits v2)] := by
  simp only [lcdLatched, applyEv, gpioApply, dataNibble, nibbleBits]
  simp +decide

theorem Odev4.LCD_Data_events (b : Nat) (hb : b < 256) :
    Odev4.LCD_Data b =
      [Ev.gpioWrite Port.B 1 1,
       Ev.gpioWrite Port.B 240 ((b >>> 4) <<< 4), Ev.gpioWrite Port.B 2 2, Ev.delay 40000,
       Ev.gpioWrite Port.B 2 0, Ev.delay 40000,
       Ev.gpioWrite Port.B 240 ((b &&& 0x0F) <<< 4), Ev.gpioWrite Port.B 2 2, Ev.delay 40000,
       Ev.gpioWrite Port.B 2 0, Ev.delay 40000, Ev.delay 80000] := by
  have hu : u8 b = b := Nat.mod_eq_of_lt hb
  obtain ⟨h1, h2, _⟩ := nibble_shift_u8 b hb
  simp only [Odev4.LCD_Data, Odev4.LCD_Write_4Bit, Odev4.LCD_Pulse_Enable, hu, h1, h2,
    List.cons_append, List.nil_append, Odev4.RS, Odev4.E, Odev4.D4567, GPIO_PIN]
  rfl

theorem Odev4.LCD_Cmd_events (b : Nat) (hb : b < 256) :
    Odev4.LCD_Cmd b =
      [Ev.gpioWrite Port.B 1 0,
       Ev.gpioWrite Port.B 240 ((b >>> 4) <<< 4), Ev.gpioWrite Port.B 2 2, Ev.delay 40000,
       Ev.gpioWrite Port.B 2 0, Ev.delay 40000,
       Ev.gpioWrite Port.B 240 ((b &&& 0x0F) <<< 4), Ev.gpioWrite Port.B 2 2, Ev.delay 40000,
       Ev.gpioWrite Port.B 2 0, Ev.delay 40000, Ev.delay 80000] := by
  have hu : u8 b = b := Nat.mod_eq_of_lt hb
  obtain ⟨h1, h2, _⟩ := nibble_shift_u8 b hb
  simp only [Odev4.LCD_Cmd, Odev4.LCD_Write_4Bit, Odev4.LCD_Pulse_Enable, hu, h1, h2,
    List.cons_append, List.nil_append, Odev4.RS, Odev4.E, Odev4.D4567, GPIO_PIN]
  rfl

theorem odev2_LCD_Send_Byte_events (clk b : Nat) (hb : b < 256) (d : Bool) :
    Odev2.LCD_Send_Byte clk b d =
      [Ev.gpioWrite Port.E 2 (if d then 2 else 0),
       Ev.gpioWrite Port.B 240 ((b >>> 4) <<< 4),
       Ev.gpioWrite Port.E 8 8, Ev.delay (u32 (u32 clk / 3000000 * 10)),
       Ev.gpioWrite Port.E 8 0, Ev.delay (u32 (u32 clk / 3000000 * 10)),
       Ev.gpioWrite Port.B 240 ((b &&& 0x0F) <<< 4),
       Ev.gpioWrite Port.E 8 8, Ev.delay (u32 (u32 clk / 3000000 * 10)),
       Ev.gpioWrite Port.E 8 0, Ev.delay (u32 (u32 clk / 3000000 * 10)),
       Ev.delay (u32 (u32 clk / 3000000 * 50))] := by
  have hu : u8 b = b := Nat.mod_eq_of_lt hb
  obtain ⟨h1, h2, _⟩ := nibble_shift_u8 b hb
  cases d <;>
  simp only [Odev2.LCD_Send_Byte, Odev2.LCD_Send_Nibble, Odev2.LCD_Pulse_EN, Odev2.delay_us,
    hu, h1, h2, List.cons_append, List.nil_append, List.append_assoc, Odev2.LCD_RS_PIN,
    Odev2.LCD_EN_PIN, Odev2.LCD_DATA_PINS, GPIO_PIN] <;>
  rfl

theorem odev3_LCD_Send_Byte_events (clk b : Nat) (hb : b < 256) (d : Bool) :
    Odev3.LCD_Send_Byte clk b d =
      [Ev.gpioWrite Port.E 2 (if d then 2 else 0),
       Ev.gpioWrite Port.B 240 ((b >>> 4) <<< 4),
       Ev.gpioWrite Port.E 8 8, Ev.delay (u32 (u32 clk / 3000000 * 10)),
       Ev.gpioWrite Port.E 8 0, Ev.delay (u32 (u32 clk / 3000000 * 10)),
       Ev.gpioWrite Port.B 240 ((b &&& 0x0F) <<< 4),
       Ev.gpioWrite Port.E 8 8, Ev.delay (u32 (u32 clk / 3000000 * 10)),
       Ev.gpioWrite Port.E 8 0, Ev.delay (u32 (u32 clk / 3000000 * 10)),
       Ev.delay (u32 (u32 clk / 3000000 * 50))] := by
  have hu : u8 b = b := Nat.mod_eq_of_lt hb
  obtain ⟨h1, h2, _⟩ := nibble_shift_u8 b hb
  cases d <;>
  simp only [Odev3.LCD_Send_Byte, Odev3.LCD_Send_Nibble, Odev3.LCD_Pulse_EN, Odev3.delay_us,
    hu, h1, h2, List.cons_append, List.nil_append, List.append_assoc,
    Odev3.LCD_DATA_PINS, GPIO_PIN] <;>
  rfl

/-- C6: for every byte `b`, `LCD_Data(b)` (Odev4) and `LCD_Send_Byte(b, true)`
(Odev2) write the pins in this order: register-select high, data lines to the
high nibble `b >> 4`, one enable pulse (high then low), data lines to the low
nibble `b & 0x0F`, one enable pulse; no write of the trace lowers
register-select; from any prior pin state the display latches the nibble
`b >> 4` then the nibble `b & 0x0F`, both with register-select high; and
`16 * (b >> 4) + (b & 0x0F) = b`. -/
theorem lcd_data_write_trace (b : Nat) (hb : b < 256) (clk : Nat) :
    pinWrites (Odev4.LCD_Data b) =
      [Ev.gpioWrite Port.B Odev4.RS Odev4.RS,
       Ev.gpioWrite Port.B Odev4.D4567 ((b >>> 4) <<< 4),
       Ev.gpioWrite Port.B Odev4.E Odev4.E, Ev.gpioWrite Port.B Odev4.E 0,
       Ev.gpioWrite Port.B Odev4.D4567 ((b &&& 0x0F) <<< 4),
       Ev.gpioWrite Port.B Odev4.E Odev4.E, Ev.gpioWrite Port.B Odev4.E 0] ∧
    pinWrites (Odev2.LCD_Send_Byte clk b true) =
      [Ev.gpioWrite Port.E Odev2.LCD_RS_PIN Odev2.LCD_RS_PIN,
       Ev.gpioWrite Port.B Odev2.LCD_DATA_PINS ((b >>> 4) <<< 4),
       Ev.gpioWrite Port.E Odev2.LCD_EN_PIN Odev2.LCD_EN_PIN,
       Ev.gpioWrite Port.E Odev2.LCD_EN_PIN 0,
       Ev.gpioWrite Port.B Odev2.LCD_DATA_PINS ((b &&& 0x0F) <<< 4),
       Ev.gpioWrite Port.E Odev2.LCD_EN_PIN Odev2.LCD_EN_PIN,
       Ev.gpioWrite Port.E Odev2.LCD_EN_PIN 0] ∧
    (∀ e ∈ Odev4.LCD_Data b, lowersRS Odev4.wiring e = false) ∧
    (∀ e ∈ Odev2.LCD_Send_Byte clk b true, lowersRS Odev2.wiring e = false) ∧
    (∀ s : Pins, lcdLatched Odev4.wiring s (Odev4.LCD_Data b)
      = [(true, b >>> 4), (true, b &&& 0x0F)]) ∧
    (∀ s : Pins, lcdLatched Odev2.wiring s (Odev2.LCD_Send_Byte clk b true)
      = [(true, b >>> 4), (true, b &&& 0x0F)]) ∧
    16 * (b >>> 4) + (b &&& 0x0F) = b := by
  obtain ⟨n1, n2⟩ := nibbleBits_shift b hb
  refine ⟨?_, ?_, ?_, ?_, ?_, ?_, (nibble_shift_u8 b hb).2.2⟩
  · rw [Odev4.LCD_Data_events b hb]; rfl
  · rw [odev2_LCD_Send_Byte_events clk b hb]; rfl
  · rw [Odev4.LCD_Data_events b hb]
    intro e he
    simp only [List.mem_cons, List.mem_nil_iff, or_false] at he
    rcases he with h | h | h | h | h | h | h | h | h | h | h | h <;>
      (subst h; simp +decide [lowersRS, Odev4.wiring])
  · rw [odev2_LCD_Send_Byte_events clk b hb]
    intro e he
    simp only [List.mem_cons, List.mem_nil_iff, or_false] at he
    rcases he with h | h | h | h | h | h | h | h | h | h | h | h <;>
      (subst h; simp +decide [lowersRS, Odev2.wiring])
  · intro s
    rw [Odev4.LCD_Data_events b hb, Odev4.latched_two_nibbles, n1, n2]; rfl
  · intro s
    rw [odev2_LCD_Send_Byte_events clk b hb]
    show lcdLatched
      { rsPort := Port.E, rsPin := 1, enPort := Port.E, enPin := 3, dataPort := Port.B } s _ = _
    rw [if_pos rfl, latched_two_nibbles_PE, n1, n2]; rfl

theorem lcd_data_write_trace_witness :
    (0x41 < 256) ∧
    lcdLatched Odev4.wiring (fun _ _ => false) (Odev4.LCD_Data 0x41)
      = [(true, 0x4), (true, 0x1)] ∧
    lcdLatched Odev2.wiring (fun _ _ => false) (Odev2.LCD_Send_Byte 80000000 0x41 true)
      = [(true, 0x4), (true, 0x1)] :=
  ⟨by decide,
   (lcd_data_write_trace 0x41 (by decide) 80000000).2.2.2.2.1 (fun _ _ => false),
   (lcd_data_write_trace 0x41 (by decide) 80000000).2.2.2.2.2.1 (fun _ _ => false)⟩

/-- C7: for every byte `b` and every prior state of the pins, `LCD_Cmd(b)`
(Odev4) first writes register-select low, register-select is low after every
event of the call (so before and during both enable pulses), and the display
latches the high nibble `b >> 4` first and the low nibble `b & 0x0F` second,
both with register-select low. -/
theorem lcd_cmd_register_select_low (b : Nat) (hb : b < 256) (s : Pins) :
    (Odev4.LCD_Cmd b).head? = some (Ev.gpioWrite Port.B Odev4.RS 0) ∧
    (∀ p ∈ snapshots s (Odev4.LCD_Cmd b), p Odev4.wiring.rsPort Odev4.wiring.rsPin = false) ∧
    lcdLatched Odev4.wiring s (Odev4.LCD_Cmd b) = [(false, b >>> 4), (false, b &&& 0x0F)] := by
  obtain ⟨n1, n2⟩ := nibbleBits_shift b hb
  refine ⟨?_, ?_, ?_⟩
  · rw [Odev4.LCD_Cmd_events b hb]; rfl
  · rw [Odev4.LCD_Cmd_events b hb]
    exact Odev4.rs_two_nibbles s 0 _ _
  · rw [Odev4.LCD_Cmd_events b hb, Odev4.latched_two_nibbles, n1, n2]; rfl

theorem lcd_cmd_register_select_low_witness :
    (0xC5 < 256) ∧
    lcdLatched Odev4.wiring (runEvs (fun _ _ => false) (Odev4.LCD_Data 0x41)) (Odev4.LCD_Cmd 0xC5)
      = [(false, 0xC), (false, 0x5)] :=
  ⟨by decide,
   (lcd_cmd_register_select_low 0xC5 (by decide)
      (runEvs (fun _ _ => false) (Odev4.LCD_Data 0x41))).2.2⟩

/-- C8: for every column `col` in 0..15 and every 8-bit `row`, `LCD_SetCursor`
of Odev2 sends exactly one command byte, `0x80 + (0x40 if row == 1, else 0) +
col`: the call is one `LCD_Send_Cmd` of that byte, and from any prior pin state
the display latches exactly its two nibbles, with register-select low. -/
theorem odev2_set_cursor_command (clk col row : Nat) (hc : col < 16) (hr : row < 256) (s : Pins) :
    Odev2.LCD_SetCursor clk col row
      = Odev2.LCD_Send_Cmd clk (0x80 + (if row = 1 then 0x40 else 0) + col) ∧
    lcdLatched Odev2.wiring s (Odev2.LCD_SetCursor clk col row)
      = [(false, (0x80 + (if row = 1 then 0x40 else 0) + col) >>> 4),
         (false, (0x80 + (if row = 1 then 0x40 else 0) + col) &&& 0x0F)] ∧
    16 * ((0x80 + (if row = 1 then 0x40 else 0) + col) >>> 4)
      + ((0x80 + (if row = 1 then 0x40 else 0) + col) &&& 0x0F)
      = 0x80 + (if row = 1 then 0x40 else 0) + col := by
  have hx : 0x80 + (if row = 1 then 0x40 else 0) + col < 256 := by split_ifs <;> omega
  have e : Odev2.LCD_SetCursor clk col row
      = Odev2.LCD_Send_Cmd clk (0x80 + (if row = 1 then 0x40 else 0) + col) := by
    have h1 : u8 col = col := Nat.mod_eq_of_lt (by omega)
    have h2 : u8 row = row := Nat.mod_eq_of_lt hr
    simp only [Odev2.LCD_SetCursor, h1, h2, Odev2.LCD_CMD_SET_DDRAM]
    congr 1
    unfold u8
    split_ifs <;> omega
  obtain ⟨n1, n2⟩ := nibbleBits_shift _ hx
  refine ⟨e, ?_, (nibble_shift_u8 _ hx).2.2⟩
  rw [e, Odev2.LCD_Send_Cmd, odev2_LCD_Send_Byte_events clk _ hx]
  show lcdLatched
    { rsPort := Port.E, rsPin := 1, enPort := Port.E, enPin := 3, dataPort := Port.B } s _ = _
  rw [latched_two_nibbles_PE, n1, n2]; rfl

theorem odev2_set_cursor_command_witness :
    (5 < 16 ∧ 1 < 256) ∧
    Odev2.LCD_SetCursor 80000000 5 1 = Odev2.LCD_Send_Cmd 80000000 0xC5 ∧
    lcdLatched Odev2.wiring (fun _ _ => false) (Odev2.LCD_SetCursor 80000000 5 1)
      = [(false, 0xC), (false, 0x5)] :=
  ⟨⟨by decide, by decide⟩,
   (odev2_set_cursor_command 80000000 5 1 (by decide) (by decide) (fun _ _ => false)).1,
   (odev2_set_cursor_command 80000000 5 1 (by decide) (by decide) (fun _ _ => false)).2.1⟩

/-- Evaluation of `LCD_SetCursor(5, 2)` of Odev3 at any clock rate and from any
pin state: the command byte is `0x05`, because the sum `0x80 + 2 * 0x40 + 5 =
0x105` loses its top bit in the conversion to `uint8_t`. -/
theorem odev3_set_cursor_row_two (clk : Nat) (s : Pins) :
    Odev3.LCD_SetCursor clk 5 2 = Odev3.LCD_Send_Byte clk 0x05 false ∧
    lcdLatched Odev3.wiring s (Odev3.LCD_SetCursor clk 5 2) = [(false, 0x0), (false, 0x5)] ∧
    lcdLatched Odev3.wiring s (Odev3.LCD_SetCursor clk 5 2)
      ≠ [(false, (0x80 + 0 + 5) >>> 4), (false, (0x80 + 0 + 5) &&& 0x0F)] := by
  have e : Odev3.LCD_SetCursor clk 5 2 = Odev3.LCD_Send_Byte clk 0x05 false := rfl
  have l : lcdLatched Odev3.wiring s (Odev3.LCD_SetCursor clk 5 2)
      = [(false, 0x0), (false, 0x5)] := by
    rw [e, odev3_LCD_Send_Byte_events clk 5 (by decide)]
    show lcdLatched
      { rsPort := Port.E, rsPin := 1, enPort := Port.E, enPin := 3, dataPort := Port.B } s _ = _
    rw [latched_two_nibbles_PE]; rfl
  refine ⟨e, l, ?_⟩
  rw [l]; decide

/-- On rows 0 and 1 `LCD_SetCursor` of Odev3 sends `0x80 + 0x40 * row + col`. -/
theorem odev3_set_cursor_rows_0_1 (clk col row : Nat) (hc : col < 16) (hr : row < 2) (s : Pins) :
    lcdLatched Odev3.wiring s (Odev3.LCD_SetCursor clk col row)
      = [(false, (0x80 + (if row = 1 then 0x40 else 0) + col) >>> 4),
         (false, (0x80 + (if row = 1 then 0x40 else 0) + col) &&& 0x0F)] := by
  have hx : 0x80 + (if row = 1 then 0x40 else 0) + col < 256 := by split_ifs <;> omega
  have e : Odev3.LCD_SetCursor clk col row
      = Odev3.LCD_Send_Byte clk (0x80 + (if row = 1 then 0x40 else 0) + col) false := by
    have h1 : u8 col = col := Nat.mod_eq_of_lt (by omega)
    have h2 : u8 row = row := Nat.mod_eq_of_lt (by omega)
    simp only [Odev3.LCD_SetCursor, h1, h2]
    congr 1
    split_ifs <;> omega
  obtain ⟨n1, n2⟩ := nibbleBits_shift _ hx
  rw [e, odev3_LCD_Send_Byte_events clk _ hx]
  show lcdLatched
    { rsPort := Port.E, rsPin := 1, enPort := Port.E, enPin := 3, dataPort := Port.B } s _ = _
  rw [latched_two_nibbles_PE, n1, n2]; rfl

/-- C9 (counterexample): at 80 MHz and from all pins low, `LCD_SetCursor(5, 2)`
of Odev3 is the transfer of the command byte `0x05`: the display latches the
nibbles `0x0`, `0x5`, not the nibbles `0x8`, `0x5` of `0x80 + 0 + 5 = 0x85`. -/
theorem odev3_set_cursor_row_two_counterexample :
    Odev3.LCD_SetCursor 80000000 5 2 = Odev3.LCD_Send_Byte 80000000 0x05 false ∧
    lcdLatched Odev3.wiring (fun _ _ => false) (Odev3.LCD_SetCursor 80000000 5 2)
      = [(false, 0x0), (false, 0x5)] ∧
    lcdLatched Odev3.wiring (fun _ _ => false) (Odev3.LCD_SetCursor 80000000 5 2)
      ≠ [(false, (0x80 + (if 2 = 1 then 0x40 else 0) + 5) >>> 4),
         (false, (0x80 + (if 2 = 1 then 0x40 else 0) + 5) &&& 0x0F)] :=
  odev3_set_cursor_row_two 80000000 (fun _ _ => false)

/-- C9 (amended): for every column `col` in 0..15 and every 8-bit `row`,
`LCD_SetCursor(col, row)` of Odev3 sends exactly one command byte, `(0x80 +
row * 0x40 + col) mod 256`: the call is one `LCD_Send_Byte` of that byte with
register-select low, and from any prior pin state the display latches exactly
its two nibbles.  That byte is `0x80 + (0x40 if row == 1, else 0) + col`
exactly when `row` is 1 or a multiple of 4, in particular on rows 0 and 1. -/
theorem odev3_set_cursor_command (clk col row : Nat) (hc : col < 16) (hr : row < 256)
    (s : Pins) :
    Odev3.LCD_SetCursor clk col row
      = Odev3.LCD_Send_Byte clk ((0x80 + row * 0x40 + col) % 256) false ∧
    lcdLatched Odev3.wiring s (Odev3.LCD_SetCursor clk col row)
      = [(false, ((0x80 + row * 0x40 + col) % 256) >>> 4),
         (false, ((0x80 + row * 0x40 + col) % 256) &&& 0x0F)] ∧
    16 * (((0x80 + row * 0x40 + col) % 256) >>> 4) + (((0x80 + row * 0x40 + col) % 256) &&& 0x0F)
      = (0x80 + row * 0x40 + col) % 256 ∧
    ((0x80 + row * 0x40 + col) % 256 = 0x80 + (if row = 1 then 0x40 else 0) + col
      ↔ row = 1 ∨ row % 4 = 0) := by
  have hx : (0x80 + row * 0x40 + col) % 256 < 256 := Nat.mod_lt _ (by decide)
  have e : Odev3.LCD_SetCursor clk col row
      = Odev3.LCD_Send_Byte clk ((0x80 + row * 0x40 + col) % 256) false := by
    have h1 : u8 col = col := Nat.mod_eq_of_lt (by omega)
    have h2 : u8 row = row := Nat.mod_eq_of_lt hr
    have h3 : u8 ((0x80 + row * 0x40 + col) % 256) = u8 (0x80 + row * 0x40 + col) :=
      Nat.mod_mod _ _
    simp only [Odev3.LCD_SetCursor, Odev3.LCD_Send_Byte, h1, h2, h3]
  obtain ⟨n1, n2⟩ := nibbleBits_shift _ hx
  refine ⟨e, ?_, (nibble_shift_u8 _ hx).2.2, ?_⟩
  · rw [e, odev3_LCD_Send_Byte_events clk _ hx]
    show lcdLatched
      { rsPort := Port.E, rsPin := 1, enPort := Port.E, enPin := 3, dataPort := Port.B } s _ = _
    rw [latched_two_nibbles_PE, n1, n2]; rfl
  · split_ifs <;> omega

theorem odev3_set_cursor_command_witness :
    (5 < 16 ∧ 1 < 256) ∧
    Odev3.LCD_SetCursor 80000000 5 1 = Odev3.LCD_Send_Byte 80000000 0xC5 false ∧
    lcdLatched Odev3.wiring (fun _ _ => false) (Odev3.LCD_SetCursor 80000000 5 1)
      = [(false, 0xC), (false, 0x5)] ∧
    lcdLatched Odev3.wiring (fun _ _ => false) (Odev3.LCD_SetCursor 80000000 5 4)
      = [(false, 0x8), (false, 0x5)] :=
  ⟨⟨by decide, by decide⟩,
   (odev3_set_cursor_command 80000000 5 1 (by decide) (by decide) (fun _ _ => false)).1,
   (odev3_set_cursor_command 80000000 5 1 (by decide) (by decide) (fun _ _ => false)).2.1,
   (odev3_set_cursor_command 80000000 5 4 (by decide) (by decide) (fun _ _ => false)).2.1⟩

/-! ### Telemetry -/

theorem utoaAux_spec (fuel : Nat) : ∀ (n : Nat) (acc : List Nat), n < fuel →
    ∃ ds : List Nat, utoaAux fuel n acc = ds ++ acc ∧ ds ≠ [] ∧
      (∀ c ∈ ds, isdigit c = true) ∧ decimalValue ds = n ∧ (ds.head? = some 48 → ds = [48]) := by
  induction fuel with
  | zero => intro n acc h; omega
  | succ k ih =>
    intro n acc h
    by_cases hn : n < 10
    · refine ⟨[48 + n], ?_, by simp, ?_, ?_, ?_⟩
      · simp [utoaAux, hn]
      · intro c hc
        simp only [List.mem_singleton] at hc
        subst hc
        simp [isdigit]; omega
      · simp [decimalValue]
      · intro _; simp_all
    · obtain ⟨ds, e, hne, hd, hv, hz⟩ := ih (n / 10) ((48 + n % 10) :: acc) (by omega)
      refine ⟨ds ++ [48 + n % 10], ?_, by simp, ?_, ?_, ?_⟩
      · simp [utoaAux, hn, e]
      · intro c hc
        rcases List.mem_append.1 hc with h1 | h1
        · exact hd c h1
        · simp only [List.mem_singleton] at h1
          subst h1
          simp [isdigit]; omega
      · unfold decimalValue at hv ⊢
        rw [List.foldl_append, hv]
        simp only [List.foldl_cons, List.foldl_nil]
        omega
      · intro h48
        exfalso
        cases ds with
        | nil => exact hne rfl
        | cons x xs =>
          simp only [List.cons_append, List.head?_cons, Option.some.injEq] at h48
          have := hz (by simp [h48])
          rw [this] at hv
          simp [decimalValue] at hv
          omega

theorem utoa_spec (n : Nat) :
    utoa n ≠ [] ∧ (∀ c ∈ utoa n, isdigit c = true) ∧ decimalValue (utoa n) = n ∧
      ((utoa n).head? = some 48 → utoa n = [48]) := by
  obtain ⟨ds, e, h1, h2, h3, h4⟩ := utoaAux_spec (n + 1) n [] (by omega)
  rw [List.append_nil] at e
  unfold utoa
  rw [e]
  exact ⟨h1, h2, h3, h4⟩

set_option maxRecDepth 100000 in
theorem fmt_02d_two_digits : ∀ n : Nat, n < 100 →
    fmt_02d (n : Int) = [48 + n / 10, 48 + n % 10] := by
  decide

theorem uartBytes_append (a b : List Ev) :
    Odev4.uartBytes (a ++ b) = Odev4.uartBytes a ++ Odev4.uartBytes b := by
  simp [Odev4.uartBytes, List.filterMap_append]

theorem uartBytes_uartSend (l : List Nat) (h : ∀ c ∈ l, c ≠ 0) :
    Odev4.uartBytes (Odev4.uartSend l) = l := by
  induction l with
  | nil => rfl
  | cons c cs ih =>
    have hc : c ≠ 0 := h c (by simp)
    have hcs : ∀ x ∈ cs, x ≠ 0 := fun x hx => h x (by simp [hx])
    simp only [Odev4.uartSend, hc, if_false]
    simp only [Odev4.uartBytes, List.filterMap_cons]
    exact congrArg (c :: ·) (ih hcs)

theorem uartBytes_LCD_Cmd (b : Nat) : Odev4.uartBytes (Odev4.LCD_Cmd b) = [] := rfl

theorem uartBytes_LCD_Data (b : Nat) : Odev4.uartBytes (Odev4.LCD_Data b) = [] := rfl

theorem uartBytes_LCD_Print (l : List Nat) : Odev4.uartBytes (Odev4.LCD_Print l) = [] := by
  induction l with
  | nil => rfl
  | cons c cs ih =>
    unfold Odev4.LCD_Print
    split_ifs
    · rfl
    · rw [uartBytes_append, uartBytes_LCD_Data, ih]; rfl

namespace Odev4

/-- Events issued by one report, in program order. -/
theorem report_trace (st : State) (adc : Nat) (hflag : st.send_report_flag = true) :
    (report st adc).trace = st.trace ++
      ([Ev.adcTrigger, Ev.adcIntClear, Ev.adcDataGet (u32 adc)] ++
       uartSend (fmt_02d st.hours ++ [58] ++ fmt_02d st.minutes ++ [58] ++ fmt_02d st.seconds ++
          [59] ++ fmt_u (u32 adc) ++ [59] ++ fmt_d (if st.button_latch then 1 else 0) ++ [13, 10]) ++
       LCD_Cmd 0x80 ++
       LCD_Print (bytes "Time: " ++ fmt_02d st.hours ++ [58] ++ fmt_02d st.minutes ++ [58] ++
          fmt_02d st.seconds) ++
       LCD_Cmd 0xC0 ++
       LCD_Print (bytes "ADC:" ++ fmt_4u (u32 adc) ++ bytes " Msg:" ++
          cstrAt st.lcd_custom_msg 0)) := by
  simp only [report, hflag, if_true, reportAdc, takeLatch, reportTelemetry, reportLine1,
    reportLine2, telemetry, List.append_assoc]

/-- C10: for every in-range clock, every ADC value in 0..4095 and either latch
value, the bytes transmitted over the UART by one report are exactly: hours,
minutes and seconds as two zero-padded decimal digits each, separated by `:`,
then `;`, the ADC value in unsigned decimal without padding, `;`, the digit
`1` if the latch was set and `0` otherwise, then CR LF; hence the line matches
`^\d{2}:\d{2}:\d{2};\d+;[01]\r\n$`. -/
theorem telemetry_line_format (st : State) (adc h m s : Nat)
    (hflag : st.send_report_flag = true)
    (hh : st.hours = (h : Int)) (hm : st.minutes = (m : Int)) (hs : st.seconds = (s : Int))
    (h24 : h < 24) (m60 : m < 60) (s60 : s < 60) (hadc : adc < 4096) :
    ∃ ds : List Nat,
      (ds ≠ [] ∧ (∀ c ∈ ds, isdigit c = true) ∧ decimalValue ds = adc ∧
        (ds.head? = some 48 → ds = [48])) ∧
      uartBytes (report st adc).trace = uartBytes st.trace ++
        ([48 + h / 10, 48 + h % 10, 58, 48 + m / 10, 48 + m % 10, 58, 48 + s / 10, 48 + s % 10, 59]
          ++ ds ++ [59, if st.button_latch then 49 else 48, 13, 10]) ∧
      MatchesTelemetry
        ([48 + h / 10, 48 + h % 10, 58, 48 + m / 10, 48 + m % 10, 58, 48 + s / 10, 48 + s % 10, 59]
          ++ ds ++ [59, if st.button_latch then 49 else 48, 13, 10]) := by
  obtain ⟨d1, d2, d3, d4⟩ := utoa_spec adc
  have hu : u32 adc = adc := Nat.mod_eq_of_lt (by omega)
  have hfu : fmt_u (u32 adc) = utoa adc := by simp [fmt_u, hu]
  have hbtn : fmt_d (if st.button_latch then 1 else 0)
      = [if st.button_latch then 49 else 48] := by
    cases st.button_latch <;> rfl
  have dig : ∀ n : Nat, n < 100 → isdigit (48 + n / 10) = true ∧ isdigit (48 + n % 10) = true := by
    intro n hn
    simp [isdigit]; omega
  have ndz : ∀ c ∈ utoa adc, c ≠ 0 := by
    intro c hc h0
    have := d2 c hc
    rw [h0] at this
    exact absurd this (by decide)
  have nz : ∀ c ∈ [48 + h / 10, 48 + h % 10, 58, 48 + m / 10, 48 + m % 10, 58, 48 + s / 10,
      48 + s % 10, 59] ++ utoa adc ++ [59, if st.button_latch then 49 else 48, 13, 10],
      c ≠ 0 := by
    intro c hc
    simp only [List.mem_append, List.mem_cons, List.mem_nil_iff, or_false] at hc
    rcases hc with (h1 | h1) | h1
    · rcases h1 with h1 | h1 | h1 | h1 | h1 | h1 | h1 | h1 | h1 <;> omega
    · exact ndz c h1
    · rcases h1 with h1 | h1 | h1 | h1
      · omega
      · rw [h1]; split_ifs <;> decide
      · omega
      · omega
  have e1 : uartBytes [Ev.adcTrigger, Ev.adcIntClear, Ev.adcDataGet (u32 adc)] = [] := rfl
  have line : fmt_02d st.hours ++ [58] ++ fmt_02d st.minutes ++ [58] ++ fmt_02d st.seconds ++
      [59] ++ fmt_u (u32 adc) ++ [59] ++ fmt_d (if st.button_latch then 1 else 0) ++ [13, 10]
      = [48 + h / 10, 48 + h % 10, 58, 48 + m / 10, 48 + m % 10, 58, 48 + s / 10,
          48 + s % 10, 59] ++ utoa adc ++ [59, if st.button_latch then 49 else 48, 13, 10] := by
    rw [hh, hm, hs, fmt_02d_two_digits h (by omega), fmt_02d_two_digits m (by omega),
      fmt_02d_two_digits s (by omega), hfu, hbtn]
    simp only [List.cons_append, List.nil_append, List.append_assoc]
  refine ⟨utoa adc, ⟨d1, d2, d3, d4⟩, ?_, ?_⟩
  · rw [report_trace st adc hflag, line]
    simp only [uartBytes_append, uartBytes_LCD_Cmd, uartBytes_LCD_Print, e1,
      uartBytes_uartSend _ nz, List.append_nil, List.nil_append]
  · refine ⟨48 + h / 10, 48 + h % 10, 48 + m / 10, 48 + m % 10, 48 + s / 10, 48 + s % 10,
      utoa adc, if st.button_latch then 49 else 48,
      (dig h (by omega)).1, (dig h (by omega)).2, (dig m (by omega)).1, (dig m (by omega)).2,
      (dig s (by omega)).1, (dig s (by omega)).2, d1, d2, ?_, rfl⟩
    cases st.button_latch <;> simp

end Odev4

theorem Odev4.telemetry_line_format_witness :
    (∃ ds : List Nat,
      (ds ≠ [] ∧ (∀ c ∈ ds, isdigit c = true) ∧ decimalValue ds = 1024 ∧
        (ds.head? = some 48 → ds = [48])) ∧
      Odev4.uartBytes
          (Odev4.report (Odev4.Timer0IntHandler (Odev4.pollButton Odev4.initState 0)) 1024).trace
        = Odev4.uartBytes (Odev4.Timer0IntHandler (Odev4.pollButton Odev4.initState 0)).trace ++
          ([48, 48, 58, 48, 48, 58, 48, 49, 59] ++ ds ++ [59, 49, 13, 10]) ∧
      MatchesTelemetry ([48, 48, 58, 48, 48, 58, 48, 49, 59] ++ ds ++ [59, 49, 13, 10])) ∧
    Odev4.uartBytes
        (Odev4.report (Odev4.Timer0IntHandler (Odev4.pollButton Odev4.initState 0)) 1024).trace
      = bytes "00:00:01;1024;1\r\n" :=
  ⟨Odev4.telemetry_line_format (Odev4.Timer0IntHandler (Odev4.pollButton Odev4.initState 0))
      1024 0 0 1 rfl rfl rfl rfl (by decide) (by decide) (by decide) (by decide),
   by decide⟩


/-! ### Clock invariants -/

namespace Odev4

theorem Timer0IntHandler_frame (st : State) :
    Timer0IntHandler st =
      { st with
        hours := (Timer0IntHandler st).hours
        minutes := (Timer0IntHandler st).minutes
        seconds := (Timer0IntHandler st).seconds
        send_report_flag := true
        trace := st.trace ++ [Ev.timerIntClear] } := by
  unfold Timer0IntHandler
  dsimp only
  split_ifs <;> rfl

theorem Timer0IntHandler_frame_fields (st : State) :
    (Timer0IntHandler st).send_report_flag = true ∧
    (Timer0IntHandler st).button_latch = st.button_latch ∧
    (Timer0IntHandler st).lcd_custom_msg = st.lcd_custom_msg ∧
    (Timer0IntHandler st).adcValue = st.adcValue ∧
    (Timer0IntHandler st).l1 = st.l1 ∧
    (Timer0IntHandler st).l2 = st.l2 ∧
    (Timer0IntHandler st).txBuf = st.txBuf ∧
    (Timer0IntHandler st).b = st.b ∧
    (Timer0IntHandler st).pc = st.pc ∧
    (Timer0IntHandler st).trace = st.trace ++ [Ev.timerIntClear] ∧
    pinWrites (Timer0IntHandler st).trace = pinWrites st.trace ∧
    uartBytes (Timer0IntHandler st).trace = uartBytes st.trace := by
  rw [Timer0IntHandler_frame st]
  refine ⟨rfl, rfl, rfl, rfl, rfl, rfl, rfl, rfl, rfl, rfl, ?_, ?_⟩
  · simp [pinWrites]
  · simp [uartBytes]

/-- C16: after one invocation of the tick handler the report flag is true,
whatever it was and whatever the clock; apart from the clock triple and that
flag the handler changes nothing: button latch, display message, ADC value,
text buffers, receive buffer and control point are unchanged, and the only
hardware event is the timer interrupt clear: no display pin write and no
serial byte is issued. -/
theorem tick_handler_frame (st : State) :
    (Timer0IntHandler st).send_report_flag = true ∧
    (Timer0IntHandler st).button_latch = st.button_latch ∧
    (Timer0IntHandler st).lcd_custom_msg = st.lcd_custom_msg ∧
    (Timer0IntHandler st).adcValue = st.adcValue ∧
    (Timer0IntHandler st).l1 = st.l1 ∧
    (Timer0IntHandler st).l2 = st.l2 ∧
    (Timer0IntHandler st).txBuf = st.txBuf ∧
    (Timer0IntHandler st).b = st.b ∧
    (Timer0IntHandler st).pc = st.pc ∧
    (Timer0IntHandler st).trace = st.trace ++ [Ev.timerIntClear] ∧
    pinWrites (Timer0IntHandler st).trace = pinWrites st.trace ∧
    uartBytes (Timer0IntHandler st).trace = uartBytes st.trace := by
  rw [Timer0IntHandler_frame st]
  refine ⟨rfl, rfl, rfl, rfl, rfl, rfl, rfl, rfl, rfl, rfl, ?_, ?_⟩
  · simp [pinWrites]
  · simp [uartBytes]

theorem Timer0IntHandler_inRange (st : State) (h : InRange st) :
    InRange (Timer0IntHandler st) := by
  obtain ⟨h1, h2, h3, h4, h5, h6⟩ := h
  unfold InRange
  rw [Timer0IntHandler_hours, Timer0IntHandler_minutes, Timer0IntHandler_seconds]
  rw [wrapInt32_small (st.seconds + 1) (by omega) (by omega),
      wrapInt32_small (st.minutes + 1) (by omega) (by omega),
      wrapInt32_small (st.hours + 1) (by omega) (by omega)]
  refine ⟨?_, ?_, ?_, ?_, ?_, ?_⟩ <;> split_ifs <;> omega

theorem ticks_inRange (st : State) (h : InRange st) (n : Nat) : InRange (ticks n st) := by
  induction n with
  | zero => exact h
  | succ k ih => exact Timer0IntHandler_inRange _ ih

end Odev4

theorem odev2_Timer0_ISR_seconds (st : Odev2.State) :
    (Odev2.Timer0_ISR st).g_ui32Seconds =
      if u32 (st.g_ui32Seconds + 1) = 60 then 0 else u32 (st.g_ui32Seconds + 1) := by
  unfold Odev2.Timer0_ISR
  dsimp only
  split_ifs <;> rfl

theorem odev2_Timer0_ISR_minutes (st : Odev2.State) :
    (Odev2.Timer0_ISR st).g_ui32Minutes =
      if u32 (st.g_ui32Seconds + 1) = 60 then
        (if u32 (st.g_ui32Minutes + 1) = 60 then 0 else u32 (st.g_ui32Minutes + 1))
      else st.g_ui32Minutes := by
  unfold Odev2.Timer0_ISR
  dsimp only
  split_ifs <;> rfl

theorem odev2_Timer0_ISR_hours (st : Odev2.State) :
    (Odev2.Timer0_ISR st).g_ui32Hours =
      if u32 (st.g_ui32Seconds + 1) = 60 ∧ u32 (st.g_ui32Minutes + 1) = 60 then
        (if u32 (st.g_ui32Hours + 1) = 24 then 0 else u32 (st.g_ui32Hours + 1))
      else st.g_ui32Hours := by
  unfold Odev2.Timer0_ISR
  dsimp only
  split_ifs <;> first | rfl | (exfalso; tauto)

theorem odev2_Timer0_ISR_inRange (st : Odev2.State) (h : Odev2.InRange st) :
    Odev2.InRange (Odev2.Timer0_ISR st) := by
  obtain ⟨h1, h2, h3⟩ := h
  unfold Odev2.InRange
  rw [odev2_Timer0_ISR_hours, odev2_Timer0_ISR_minutes, odev2_Timer0_ISR_seconds]
  have e1 : u32 (st.g_ui32Seconds + 1) = st.g_ui32Seconds + 1 := Nat.mod_eq_of_lt (by omega)
  have e2 : u32 (st.g_ui32Minutes + 1) = st.g_ui32Minutes + 1 := Nat.mod_eq_of_lt (by omega)
  have e3 : u32 (st.g_ui32Hours + 1) = st.g_ui32Hours + 1 := Nat.mod_eq_of_lt (by omega)
  rw [e1, e2, e3]
  refine ⟨?_, ?_, ?_⟩ <;> split_ifs <;> omega

theorem odev2_ticks_inRange (st : Odev2.State) (h : Odev2.InRange st) (n : Nat) :
    Odev2.InRange (Odev2.ticks n st) := by
  induction n with
  | zero => exact h
  | succ k ih => exact odev2_Timer0_ISR_inRange _ ih

theorem odev3_Timer0_ISR_seconds (st : Odev3.State) :
    (Odev3.Timer0_ISR st).g_ui32Seconds =
      if u32 (st.g_ui32Seconds + 1) > 59 then 0 else u32 (st.g_ui32Seconds + 1) := by
  unfold Odev3.Timer0_ISR
  dsimp only
  split_ifs <;> rfl

theorem odev3_Timer0_ISR_minutes (st : Odev3.State) :
    (Odev3.Timer0_ISR st).g_ui32Minutes =
      if (if u32 (st.g_ui32Seconds + 1) > 59 then u32 (st.g_ui32Minutes + 1)
          else st.g_ui32Minutes) > 59 then 0
      else (if u32 (st.g_ui32Seconds + 1) > 59 then u32 (st.g_ui32Minutes + 1)
          else st.g_ui32Minutes) := by
  unfold Odev3.Timer0_ISR
  dsimp only
  split_ifs <;> rfl

theorem odev3_Timer0_ISR_hours (st : Odev3.State) :
    (Odev3.Timer0_ISR st).g_ui32Hours =
      if (if (if u32 (st.g_ui32Seconds + 1) > 59 then u32 (st.g_ui32Minutes + 1)
              else st.g_ui32Minutes) > 59 then u32 (st.g_ui32Hours + 1)
          else st.g_ui32Hours) > 23 then 0
      else (if (if u32 (st.g_ui32Seconds + 1) > 59 then u32 (st.g_ui32Minutes + 1)
              else st.g_ui32Minutes) > 59 then u32 (st.g_ui32Hours + 1)
          else st.g_ui32Hours) := by
  unfold Odev3.Timer0_ISR
  dsimp only
  split_ifs <;> rfl

theorem odev3_Timer0_ISR_inRange (st : Odev3.State) (h : Odev3.InRange st) :
    Odev3.InRange (Odev3.Timer0_ISR st) := by
  obtain ⟨h1, h2, h3⟩ := h
  unfold Odev3.InRange
  rw [odev3_Timer0_ISR_hours, odev3_Timer0_ISR_minutes, odev3_Timer0_ISR_seconds]
  have e1 : u32 (st.g_ui32Seconds + 1) = st.g_ui32Seconds + 1 := Nat.mod_eq_of_lt (by omega)
  have e2 : u32 (st.g_ui32Minutes + 1) = st.g_ui32Minutes + 1 := Nat.mod_eq_of_lt (by omega)
  have e3 : u32 (st.g_ui32Hours + 1) = st.g_ui32Hours + 1 := Nat.mod_eq_of_lt (by omega)
  rw [e1, e2, e3]
  refine ⟨?_, ?_, ?_⟩ <;> split_ifs <;> omega

theorem odev3_ticks_inRange (st : Odev3.State) (h : Odev3.InRange st) (n : Nat) :
    Odev3.InRange (Odev3.ticks n st) := by
  induction n with
  | zero => exact h
  | succ k ih => exact odev3_Timer0_ISR_inRange _ ih

/-- C15: the range invariant (hours in 0..23, minutes in 0..59, seconds in
0..59) is preserved by one tick in Odev4, in Odev2 and in Odev3, so every
state reached from the initial clock of each program by ticks alone is in
range. -/
theorem clock_range_invariant :
    (∀ st : Odev4.State, Odev4.InRange st → Odev4.InRange (Odev4.Timer0IntHandler st)) ∧
    (∀ st : Odev2.State, Odev2.InRange st → Odev2.InRange (Odev2.Timer0_ISR st)) ∧
    (∀ st : Odev3.State, Odev3.InRange st → Odev3.InRange (Odev3.Timer0_ISR st)) ∧
    (∀ n, Odev4.InRange (Odev4.ticks n Odev4.initState)) ∧
    (∀ n, Odev2.InRange (Odev2.ticks n Odev2.initState)) ∧
    (∀ n, Odev3.InRange (Odev3.ticks n Odev3.initState)) :=
  ⟨Odev4.Timer0IntHandler_inRange, odev2_Timer0_ISR_inRange, odev3_Timer0_ISR_inRange,
   Odev4.ticks_inRange _ (by decide), odev2_ticks_inRange _ (by decide),
   odev3_ticks_inRange _ (by decide)⟩

theorem clock_range_invariant_witness :
    Odev4.InRange (Odev4.Timer0IntHandler
      { Odev4.initState with hours := 23, minutes := 59, seconds := 59 }) ∧
    Odev2.InRange (Odev2.Timer0_ISR
      { Odev2.initState with g_ui32Hours := 23, g_ui32Minutes := 59, g_ui32Seconds := 59 }) ∧
    Odev3.InRange (Odev3.Timer0_ISR
      { Odev3.initState with g_ui32Hours := 23, g_ui32Minutes := 59, g_ui32Seconds := 59 }) :=
  ⟨clock_range_invariant.1 _ (by decide), clock_range_invariant.2.1 _ (by decide),
   clock_range_invariant.2.2.1 _ (by decide)⟩

namespace Odev4

theorem ticks_add (a b : Nat) (st : State) : ticks (a + b) st = ticks a (ticks b st) := by
  induction a with
  | zero => simp [ticks]
  | succ k ih =>
    have e : k + 1 + b = (k + b) + 1 := by omega
    rw [e]
    simp only [ticks]
    rw [ih]

/-- While the seconds stay below 60 only the seconds move. -/
theorem ticks_seconds_only (st : State) (s : Nat) (hs : st.seconds = (s : Int)) :
    ∀ k, s + k < 60 →
      (ticks k st).hours = st.hours ∧ (ticks k st).minutes = st.minutes ∧
      (ticks k st).seconds = ((s + k : Nat) : Int) := by
  intro k
  induction k with
  | zero => intro _; exact ⟨rfl, rfl, by simpa using hs⟩
  | succ n ih =>
    intro hk
    obtain ⟨i1, i2, i3⟩ := ih (by omega)
    simp only [ticks]
    rw [Timer0IntHandler_hours, Timer0IntHandler_minutes, Timer0IntHandler_seconds, i3,
      wrapInt32_small ((s + n : Nat) + 1) (by omega) (by omega), i1, i2]
    refine ⟨?_, ?_, ?_⟩
    · rw [if_neg]; omega
    · rw [if_neg]; omega
    · rw [if_neg] <;> omega

/-- A tick that wraps seconds and minutes brings the whole clock in range. -/
theorem Timer0IntHandler_wrap (st : State)
    (hh : 0 ≤ st.hours ∧ st.hours < 2147483647)
    (hm : 59 ≤ st.minutes ∧ st.minutes < 2147483647)
    (hs : 59 ≤ st.seconds ∧ st.seconds < 2147483647) :
    InRange (Timer0IntHandler st) := by
  unfold InRange
  rw [Timer0IntHandler_hours, Timer0IntHandler_minutes, Timer0IntHandler_seconds]
  rw [wrapInt32_small (st.seconds + 1) (by omega) (by omega),
      wrapInt32_small (st.minutes + 1) (by omega) (by omega),
      wrapInt32_small (st.hours + 1) (by omega) (by omega)]
  refine ⟨?_, ?_, ?_, ?_, ?_, ?_⟩ <;> split_ifs <;> omega

/-- Within the hour, with minutes and seconds in range, the hours stand still
and minutes and seconds count the elapsed seconds. -/
theorem ticks_within_hour (st : State) (m s : Nat)
    (hm : st.minutes = (m : Int)) (hs : st.seconds = (s : Int)) (s60 : s < 60) :
    ∀ k, 60 * m + s + k < 3600 →
      (ticks k st).hours = st.hours ∧
      (ticks k st).minutes = (((60 * m + s + k) / 60 : Nat) : Int) ∧
      (ticks k st).seconds = (((60 * m + s + k) % 60 : Nat) : Int) := by
  intro k
  induction k with
  | zero =>
    intro _
    refine ⟨rfl, ?_, ?_⟩
    · show st.minutes = _
      rw [hm]; congr 1; omega
    · show st.seconds = _
      rw [hs]; congr 1; omega
  | succ n ih =>
    intro hk
    obtain ⟨i1, i2, i3⟩ := ih (by omega)
    simp only [ticks]
    rw [Timer0IntHandler_hours, Timer0IntHandler_minutes, Timer0IntHandler_seconds, i1, i2, i3,
      wrapInt32_small (((60 * m + s + n) % 60 : Nat) + 1) (by omega) (by omega),
      wrapInt32_small (((60 * m + s + n) / 60 : Nat) + 1) (by omega) (by omega)]
    refine ⟨?_, ?_, ?_⟩
    · rw [if_neg]; omega
    · split_ifs <;> omega
    · split_ifs <;> omega

/-- With minutes and seconds in range the clock is in range at the next full
hour. -/
theorem ticks_to_full_hour (st : State) (m s : Nat)
    (hh : 0 ≤ st.hours ∧ st.hours < 2147483647)
    (hm : st.minutes = (m : Int)) (hs : st.seconds = (s : Int)) (m60 : m < 60) (s60 : s < 60) :
    InRange (ticks (3600 - 60 * m - s) st) := by
  have e : 3600 - 60 * m - s = (3599 - 60 * m - s) + 1 := by omega
  rw [e]
  simp only [ticks]
  obtain ⟨i1, i2, i3⟩ := ticks_within_hour st m s hm hs s60 (3599 - 60 * m - s) (by omega)
  apply Timer0IntHandler_wrap
  · rw [i1]; exact hh
  · rw [i2]; omega
  · rw [i3]; omega

/-- A tick with seconds at or above 59 and minutes below 59 resets the
seconds and advances the minutes. -/
theorem Timer0IntHandler_minute (st : State) (m : Nat)
    (hm : st.minutes = (m : Int)) (m59 : m < 59)
    (hs : 59 ≤ st.seconds ∧ st.seconds < 2147483647) :
    (Timer0IntHandler st).hours = st.hours ∧
    (Timer0IntHandler st).minutes = ((m + 1 : Nat) : Int) ∧
    (Timer0IntHandler st).seconds = ((0 : Nat) : Int) := by
  rw [Timer0IntHandler_hours, Timer0IntHandler_minutes, Timer0IntHandler_seconds]
  rw [wrapInt32_small (st.seconds + 1) (by omega) (by omega),
      wrapInt32_small (st.minutes + 1) (by omega) (by omega), hm]
  refine ⟨?_, ?_, ?_⟩
  · rw [if_neg]; omega
  · split_ifs <;> omega
  · split_ifs <;> omega

theorem exists_inRange_within_hour (st : State)
    (hh : 0 ≤ st.hours ∧ st.hours < 2147483647)
    (hm : 0 ≤ st.minutes ∧ st.minutes < 2147483647)
    (hs : 0 ≤ st.seconds ∧ st.seconds < 2147483647) :
    ∃ n, n ≤ 3600 ∧ InRange (ticks n st) := by
  obtain ⟨m, em⟩ := Int.eq_ofNat_of_zero_le hm.1
  obtain ⟨s, es⟩ := Int.eq_ofNat_of_zero_le hs.1
  by_cases s60 : s < 60
  · by_cases m60 : m < 60
    · exact ⟨3600 - 60 * m - s, by omega, ticks_to_full_hour st m s hh em es m60 s60⟩
    · refine ⟨(59 - s) + 1, by omega, ?_⟩
      simp only [ticks]
      obtain ⟨i1, i2, i3⟩ := ticks_seconds_only st s es (59 - s) (by omega)
      apply Timer0IntHandler_wrap
      · rw [i1]; exact hh
      · rw [i2]; omega
      · rw [i3]; omega
  · by_cases m59 : m < 59
    · obtain ⟨i1, i2, i3⟩ := Timer0IntHandler_minute st m em m59 (by omega)
      refine ⟨(3600 - 60 * (m + 1) - 0) + 1, by omega, ?_⟩
      rw [ticks_add]
      exact ticks_to_full_hour (ticks 1 st) (m + 1) 0 (by simp only [ticks]; rw [i1]; exact hh)
        (by simp only [ticks]; exact i2) (by simp only [ticks]; exact i3) (by omega) (by omega)
    · refine ⟨1, by omega, ?_⟩
      simp only [ticks]
      exact Timer0IntHandler_wrap st hh (by omega) (by omega)

/-- C14: a clock holding non-negative values, in range or not (below
`INT_MAX`, where `++` is defined; an `'S'` command commits at most 99999999),
is corrected by the tick handler: there is a number `n <= 3600` of ticks after
which hours < 24, minutes < 60 and seconds < 60 hold, and they hold after every
later tick. -/
theorem out_of_range_clock_self_corrects (st : State)
    (hh : 0 ≤ st.hours ∧ st.hours < 2147483647)
    (hm : 0 ≤ st.minutes ∧ st.minutes < 2147483647)
    (hs : 0 ≤ st.seconds ∧ st.seconds < 2147483647) :
    ∃ n, n ≤ 3600 ∧ ∀ k, n ≤ k → InRange (ticks k st) := by
  obtain ⟨n, hn, hr⟩ := exists_inRange_within_hour st hh hm hs
  refine ⟨n, hn, fun k hk => ?_⟩
  have e : k = (k - n) + n := by omega
  rw [e, ticks_add]
  exact ticks_inRange _ hr _

set_option maxRecDepth 100000 in
theorem out_of_range_clock_self_corrects_witness :
    (∃ n, n ≤ 3600 ∧ ∀ k, n ≤ k → InRange (ticks k { initState with hours := 12, minutes := 75 })) ∧
    (ticks 60 { initState with hours := 12, minutes := 75 }).hours = 13 ∧
    (ticks 60 { initState with hours := 12, minutes := 75 }).minutes = 0 ∧
    (ticks 60 { initState with hours := 12, minutes := 75 }).seconds = 0 :=
  ⟨out_of_range_clock_self_corrects { initState with hours := 12, minutes := 75 }
      (by decide) (by decide) (by decide),
   rfl, rfl, rfl⟩

end Odev4

/-! ### Display driver: printing, initialisation, cursor of Odev1 -/

theorem lcdLatched_append (w : Wiring) (a b : List Ev) :
    ∀ s : Pins, lcdLatched w s (a ++ b) = lcdLatched w s a ++ lcdLatched w (runEvs s a) b := by
  induction a with
  | nil => intro s; rfl
  | cons e es ih =>
    intro s
    show lcdLatched w s (e :: (es ++ b)) = lcdLatched w s (e :: es) ++ _
    simp only [lcdLatched, runEvs, List.foldl_cons]
    split_ifs
    · rw [ih]; rfl
    · rw [ih]; rfl

theorem LCD_Print_nul_free (text : List Nat) (h : ∀ c ∈ text, c ≠ 0) :
    Odev4.LCD_Print text = (text.map Odev4.LCD_Data).flatten := by
  induction text with
  | nil => rfl
  | cons c cs ih =>
    have hc : c ≠ 0 := h c (by simp)
    have hcs : ∀ x ∈ cs, x ≠ 0 := fun x hx => h x (by simp [hx])
    simp only [Odev4.LCD_Print, hc, if_false, List.map_cons, List.flatten_cons, ih hcs]

theorem LCD_Data_latched (c : Nat) (hc : c < 256) (s : Pins) :
    lcdLatched Odev4.wiring s (Odev4.LCD_Data c) = [(true, c >>> 4), (true, c &&& 0x0F)] := by
  obtain ⟨n1, n2⟩ := nibbleBits_shift c hc
  rw [Odev4.LCD_Data_events c hc, Odev4.latched_two_nibbles, n1, n2]; rfl

theorem LCD_Data_no_rs_low (c : Nat) (hc : c < 256) :
    ∀ e ∈ Odev4.LCD_Data c, lowersRS Odev4.wiring e = false := by
  rw [Odev4.LCD_Data_events c hc]
  intro e he
  simp only [List.mem_cons, List.mem_nil_iff, or_false] at he
  rcases he with h | h | h | h | h | h | h | h | h | h | h | h <;>
    (subst h; simp +decide [lowersRS, Odev4.wiring])

theorem LCD_Data_enable_count (c : Nat) (hc : c < 256) :
    (Odev4.LCD_Data c).count (Ev.gpioWrite Port.B Odev4.E Odev4.E) = 2 := by
  rw [Odev4.LCD_Data_events c hc]
  simp +decide [List.count_cons, Odev4.E, GPIO_PIN]

/-- C17: for every NUL-free text, `LCD_Print(text)` of Odev4 is the
concatenation of the `LCD_Data` traces of its characters, in the order of the
text and with nothing else: it raises enable `2 * length(text)` times, the
display latches the two nibbles of each character in turn, all with
register-select high (so no command, in particular no cursor command), no
write lowers register-select, and the text may have any length. -/
theorem lcd_print_one_data_write_per_character (text : List Nat)
    (h : ∀ c ∈ text, c ≠ 0 ∧ c < 256) (s : Pins) :
    Odev4.LCD_Print text = (text.map Odev4.LCD_Data).flatten ∧
    (Odev4.LCD_Print text).count (Ev.gpioWrite Port.B Odev4.E Odev4.E) = 2 * text.length ∧
    lcdLatched Odev4.wiring s (Odev4.LCD_Print text)
      = (text.map fun c => [(true, c >>> 4), (true, c &&& 0x0F)]).flatten ∧
    (∀ e ∈ Odev4.LCD_Print text, lowersRS Odev4.wiring e = false) := by
  have e := LCD_Print_nul_free text (fun c hc => (h c hc).1)
  rw [e]
  refine ⟨rfl, ?_, ?_, ?_⟩
  · clear e
    induction text with
    | nil => rfl
    | cons c cs ih =>
      have hc := (h c (by simp)).2
      have hcs : ∀ x ∈ cs, x ≠ 0 ∧ x < 256 := fun x hx => h x (by simp [hx])
      simp only [List.map_cons, List.flatten_cons, List.count_append, LCD_Data_enable_count c hc,
        ih hcs, List.length_cons]
      omega
  · clear e
    induction text generalizing s with
    | nil => rfl
    | cons c cs ih =>
      have hc := (h c (by simp)).2
      have hcs : ∀ x ∈ cs, x ≠ 0 ∧ x < 256 := fun x hx => h x (by simp [hx])
      simp only [List.map_cons, List.flatten_cons]
      rw [lcdLatched_append, LCD_Data_latched c hc, ih hcs]
  · intro ev hev
    simp only [List.mem_flatten, List.mem_map] at hev
    obtain ⟨l, ⟨c, hc, rfl⟩, hl⟩ := hev
    exact LCD_Data_no_rs_low c (h c hc).2 ev hl

theorem lcd_print_one_data_write_per_character_witness :
    (∀ c ∈ bytes "Hi", c ≠ 0 ∧ c < 256) ∧
    Odev4.LCD_Print (bytes "Hi") = Odev4.LCD_Data 0x48 ++ Odev4.LCD_Data 0x69 ∧
    lcdLatched Odev4.wiring (fun _ _ => false) (Odev4.LCD_Print (bytes "Hi"))
      = [(true, 0x4), (true, 0x8), (true, 0x6), (true, 0x9)] :=
  ⟨by decide,
   by simpa using (lcd_print_one_data_write_per_character (bytes "Hi") (by decide)
      (fun _ _ => false)).1,
   (lcd_print_one_data_write_per_character (bytes "Hi") (by decide) (fun _ _ => false)).2.2.1⟩

theorem lcdLatched_delay (w : Wiring) (s : Pins) (n : Nat) (es : List Ev) :
    lcdLatched w s ([Ev.delay n] ++ es) = lcdLatched w s es := by
  simp [lcdLatched, applyEv]

/-- What the display latches from one `LCD_Write_4Bit` of Odev4, and the
register-select level it leaves. -/
theorem Odev4.write_4bit_latched (s : Pins) (v : Nat) :
    lcdLatched Odev4.wiring s
      [Ev.gpioWrite Port.B 240 v, Ev.gpioWrite Port.B 2 2, Ev.delay 40000,
       Ev.gpioWrite Port.B 2 0, Ev.delay 40000]
      = [(s Port.B 0, nibbleBits v)] ∧
    runEvs s
      [Ev.gpioWrite Port.B 240 v, Ev.gpioWrite Port.B 2 2, Ev.delay 40000,
       Ev.gpioWrite Port.B 2 0, Ev.delay 40000] Port.B 0 = s Port.B 0 := by
  constructor
  · simp only [lcdLatched, applyEv, gpioApply, Odev4.wiring, dataNibble, nibbleBits]
    simp +decide
  · simp +decide [runEvs, applyEv, gpioApply]

theorem Odev4.LCD_Write_4Bit_events (v : Nat) (hv : v < 16) :
    Odev4.LCD_Write_4Bit v =
      [Ev.gpioWrite Port.B 240 (v <<< 4), Ev.gpioWrite Port.B 2 2, Ev.delay 40000,
       Ev.gpioWrite Port.B 2 0, Ev.delay 40000] := by
  have h1 : u8 v = v := Nat.mod_eq_of_lt (by omega)
  have h2 : u8 (v <<< 4) = v <<< 4 := by
    unfold u8
    rw [Nat.shiftLeft_eq]
    omega
  simp only [Odev4.LCD_Write_4Bit, Odev4.LCD_Pulse_Enable, h1, h2, List.cons_append,
    List.nil_append, Odev4.E, Odev4.D4567, GPIO_PIN]
  rfl

theorem Odev4.LCD_Cmd_latched (c : Nat) (hc : c < 256) (s : Pins) :
    lcdLatched Odev4.wiring s (Odev4.LCD_Cmd c) = [(false, c >>> 4), (false, c &&& 0x0F)] := by
  obtain ⟨n1, n2⟩ := nibbleBits_shift c hc
  rw [Odev4.LCD_Cmd_events c hc, Odev4.latched_two_nibbles, n1, n2]; rfl

/-- C18: from any prior pin state, `LCD_Init` of Odev4 makes the display latch
(one enable pulse each) exactly the nibbles 3, 3, 3, 2, at the register-select
level the pins had before the call, and then the nibble pairs of the command
bytes `0x28`, `0x0C`, `0x06`, `0x01`, in that order, high nibble first and
with register-select low; the call is the three configuration steps, the four
nibble writes and the four `LCD_Cmd` calls, the clear command `0x01` being the
last command. -/
theorem lcd_init_sequence (s : Pins) :
    lcdLatched Odev4.wiring s Odev4.LCD_Init =
      [(s Port.B 0, 0x3), (s Port.B 0, 0x3), (s Port.B 0, 0x3), (s Port.B 0, 0x2),
       (false, 0x28 >>> 4), (false, 0x28 &&& 0x0F), (false, 0x0C >>> 4), (false, 0x0C &&& 0x0F),
       (false, 0x06 >>> 4), (false, 0x06 &&& 0x0F), (false, 0x01 >>> 4), (false, 0x01 &&& 0x0F)] ∧
    (lcdLatched Odev4.wiring s Odev4.LCD_Init).length = 12 ∧
    Odev4.LCD_Init =
      [Ev.periphEnable Port.B, Ev.pinTypeOutput Port.B 0xFF, Ev.delay 1000000] ++
      Odev4.LCD_Write_4Bit 0x03 ++ [Ev.delay 100000] ++
      Odev4.LCD_Write_4Bit 0x03 ++ [Ev.delay 100000] ++
      Odev4.LCD_Write_4Bit 0x03 ++ [Ev.delay 100000] ++
      Odev4.LCD_Write_4Bit 0x02 ++
      (Odev4.LCD_Cmd 0x28 ++ Odev4.LCD_Cmd 0x0C ++ Odev4.LCD_Cmd 0x06 ++ Odev4.LCD_Cmd 0x01) ++
      [Ev.delay 200000] := by
  have key : lcdLatched Odev4.wiring s Odev4.LCD_Init =
      [(s Port.B 0, 0x3), (s Port.B 0, 0x3), (s Port.B 0, 0x3), (s Port.B 0, 0x2),
       (false, 0x28 >>> 4), (false, 0x28 &&& 0x0F), (false, 0x0C >>> 4), (false, 0x0C &&& 0x0F),
       (false, 0x06 >>> 4), (false, 0x06 &&& 0x0F), (false, 0x01 >>> 4),
       (false, 0x01 &&& 0x0F)] := by
    have w3 := Odev4.LCD_Write_4Bit_events 3 (by decide)
    have w2 := Odev4.LCD_Write_4Bit_events 2 (by decide)
    unfold Odev4.LCD_Init
    simp only [List.append_assoc]
    rw [lcdLatched_append]
    have c0 : lcdLatched Odev4.wiring s
        [Ev.periphEnable Port.B, Ev.pinTypeOutput Port.B 0xFF, Ev.delay 1000000] = [] := by
      simp [lcdLatched, applyEv]
    have r0 : runEvs s [Ev.periphEnable Port.B, Ev.pinTypeOutput Port.B 0xFF, Ev.delay 1000000]
        = s := rfl
    rw [c0, r0, List.nil_append]
    rw [w3, w2]
    rw [lcdLatched_append, (Odev4.write_4bit_latched s _).1, lcdLatched_delay]
    rw [lcdLatched_append, (Odev4.write_4bit_latched _ _).1, lcdLatched_delay]
    rw [lcdLatched_append, (Odev4.write_4bit_latched _ _).1, lcdLatched_delay]
    rw [lcdLatched_append, (Odev4.write_4bit_latched _ _).1]
    rw [lcdLatched_append, Odev4.LCD_Cmd_latched 0x28 (by decide)]
    rw [lcdLatched_append, Odev4.LCD_Cmd_latched 0x0C (by decide)]
    rw [lcdLatched_append, Odev4.LCD_Cmd_latched 0x06 (by decide)]
    rw [lcdLatched_append, Odev4.LCD_Cmd_latched 0x01 (by decide)]
    simp only [(Odev4.write_4bit_latched _ _).2, lcdLatched, List.singleton_append, List.cons_append,
      List.nil_append, List.append_nil]
    rfl
  refine ⟨key, by rw [key]; rfl, ?_⟩
  unfold Odev4.LCD_Init
  simp only [List.append_assoc]

/-- What the display latches from a command transfer of Odev1
(`satir_sutun`): if enable was high before the call, the first control write is
itself a falling edge and latches what the pins held; then come the two
nibbles, with register-select low. -/
theorem Odev1.latched_command (s : Pins) (v1 v2 : Nat) :
    lcdLatched Odev1.wiring s
      [Ev.gpioWrite Port.E 14 0,
       Ev.gpioWrite Port.B 240 v1, Ev.gpioWrite Port.E 14 8, Ev.delay 10000,
       Ev.gpioWrite Port.E 14 0,
       Ev.gpioWrite Port.B 240 v2, Ev.gpioWrite Port.E 14 8, Ev.delay 10000,
       Ev.gpioWrite Port.E 14 0]
      = (if s Port.E 3 then [(s Port.E 1, dataNibble Odev1.wiring s)] else []) ++
        [(false, nibbleBits v1), (false, nibbleBits v2)] := by
  simp only [lcdLatched, applyEv, gpioApply, Odev1.wiring, dataNibble, nibbleBits]
  cases hen : s Port.E 3 <;> simp +decide [hen]

/-- Register-select and enable levels during and after a command transfer of
Odev1. -/
theorem Odev1.control_levels (s : Pins) (v1 v2 : Nat) :
    (∀ p ∈ snapshots s
      [Ev.gpioWrite Port.E 14 0,
       Ev.gpioWrite Port.B 240 v1, Ev.gpioWrite Port.E 14 8, Ev.delay 10000,
       Ev.gpioWrite Port.E 14 0,
       Ev.gpioWrite Port.B 240 v2, Ev.gpioWrite Port.E 14 8, Ev.delay 10000,
       Ev.gpioWrite Port.E 14 0], p Port.E 1 = false) ∧
    runEvs s
      [Ev.gpioWrite Port.E 14 0,
       Ev.gpioWrite Port.B 240 v1, Ev.gpioWrite Port.E 14 8, Ev.delay 10000,
       Ev.gpioWrite Port.E 14 0,
       Ev.gpioWrite Port.B 240 v2, Ev.gpioWrite Port.E 14 8, Ev.delay 10000,
       Ev.gpioWrite Port.E 14 0] Port.E 3 = false := by
  constructor
  · intro p hp
    simp only [snapshots, List.mem_cons, List.mem_nil_iff, or_false] at hp
    rcases hp with h | h | h | h | h | h | h | h | h <;>
      (subst h; simp +decide [applyEv, gpioApply])
  · simp +decide [runEvs, applyEv, gpioApply]

set_option maxRecDepth 100000 in
theorem nibbleBits_masked : ∀ t, t < 256 →
    nibbleBits (u8 (0xF0 &&& t)) = t >>> 4 ∧ nibbleBits (u8 ((t &&& 0x0F) <<< 4)) = t &&& 0x0F ∧
    16 * (t >>> 4) + (t &&& 0x0F) = t := by
  decide

theorem Odev1.satir_sutun_events (r c : Nat) (hr : r = 1 ∨ r = 2) (hc1 : 1 ≤ c) (hc : c ≤ 16) :
    Odev1.satir_sutun r c =
      [Ev.gpioWrite Port.E 14 0,
       Ev.gpioWrite Port.B 240 (u8 (0xF0 &&& (0x80 + 0x40 * (r - 1) + (c - 1)))),
       Ev.gpioWrite Port.E 14 8, Ev.delay 10000, Ev.gpioWrite Port.E 14 0,
       Ev.gpioWrite Port.B 240 (u8 (((0x80 + 0x40 * (r - 1) + (c - 1)) &&& 0x0F) <<< 4)),
       Ev.gpioWrite Port.E 14 8, Ev.delay 10000, Ev.gpioWrite Port.E 14 0] := by
  rcases hr with rfl | rfl <;> interval_cases c <;> rfl

/-- C20: for every row `r` in {1, 2} and every column `c` in 1..16,
`satir_sutun(r, c)` of the Odev1 driver makes the display latch the two nibbles
of the command byte `0x80 + 0x40*(r-1) + (c-1)`, high nibble first, with
register-select low: from a pin state with enable low (the level every function
of the driver leaves it at) these are exactly what is latched, and from a pin
state with enable high they are preceded by the one latch that the first
control write causes.  Register-select is low after every write of the call
and enable is low again at its end. -/
theorem odev1_satir_sutun_command (r c : Nat) (hr : r = 1 ∨ r = 2) (hc1 : 1 ≤ c) (hc : c ≤ 16)
    (s : Pins) :
    lcdLatched Odev1.wiring s (Odev1.satir_sutun r c)
      = (if s Odev1.wiring.enPort Odev1.wiring.enPin
          then [(s Odev1.wiring.rsPort Odev1.wiring.rsPin, dataNibble Odev1.wiring s)] else []) ++
        [(false, (0x80 + 0x40 * (r - 1) + (c - 1)) >>> 4),
         (false, (0x80 + 0x40 * (r - 1) + (c - 1)) &&& 0x0F)] ∧
    (s Odev1.wiring.enPort Odev1.wiring.enPin = false →
      lcdLatched Odev1.wiring s (Odev1.satir_sutun r c)
        = [(false, (0x80 + 0x40 * (r - 1) + (c - 1)) >>> 4),
           (false, (0x80 + 0x40 * (r - 1) + (c - 1)) &&& 0x0F)]) ∧
    16 * ((0x80 + 0x40 * (r - 1) + (c - 1)) >>> 4) + ((0x80 + 0x40 * (r - 1) + (c - 1)) &&& 0x0F)
      = 0x80 + 0x40 * (r - 1) + (c - 1) ∧
    (∀ p ∈ snapshots s (Odev1.satir_sutun r c),
      p Odev1.wiring.rsPort Odev1.wiring.rsPin = false) ∧
    runEvs s (Odev1.satir_sutun r c) Odev1.wiring.enPort Odev1.wiring.enPin = false := by
  have hx : 0x80 + 0x40 * (r - 1) + (c - 1) < 256 := by rcases hr with rfl | rfl <;> omega
  obtain ⟨n1, n2, n3⟩ := nibbleBits_masked _ hx
  have key : lcdLatched Odev1.wiring s (Odev1.satir_sutun r c)
      = (if s Odev1.wiring.enPort Odev1.wiring.enPin
          then [(s Odev1.wiring.rsPort Odev1.wiring.rsPin, dataNibble Odev1.wiring s)] else []) ++
        [(false, (0x80 + 0x40 * (r - 1) + (c - 1)) >>> 4),
         (false, (0x80 + 0x40 * (r - 1) + (c - 1)) &&& 0x0F)] := by
    rw [Odev1.satir_sutun_events r c hr hc1 hc, Odev1.latched_command s, n1, n2]
    rfl
  refine ⟨key, ?_, n3, ?_, ?_⟩
  · intro hen
    rw [key, hen]
    rfl
  · rw [Odev1.satir_sutun_events r c hr hc1 hc]
    exact (Odev1.control_levels s _ _).1
  · rw [Odev1.satir_sutun_events r c hr hc1 hc]
    exact (Odev1.control_levels s _ _).2

theorem odev1_satir_sutun_command_witness :
    lcdLatched Odev1.wiring (fun _ _ => false) (Odev1.satir_sutun 1 1)
      = [(false, 0x8), (false, 0x0)] ∧
    lcdLatched Odev1.wiring (fun _ _ => false) (Odev1.satir_sutun 2 1)
      = [(false, 0xC), (false, 0x0)] :=
  ⟨(odev1_satir_sutun_command 1 1 (Or.inl rfl) (by decide) (by decide) (fun _ _ => false)).2.1 rfl,
   (odev1_satir_sutun_command 2 1 (Or.inr rfl) (by decide) (by decide) (fun _ _ => false)).2.1 rfl⟩

/-! ### Report phase -/

namespace Odev4

theorem report_fields (st : State) (adc : Nat) (hflag : st.send_report_flag = true) :
    report st adc =
      { st with
        send_report_flag := false
        button_latch := false
        adcValue := u32 adc
        txBuf := timeText st ++ [59] ++ fmt_u (u32 adc) ++ [59] ++
          fmt_d (if st.button_latch then 1 else 0) ++ [13, 10]
        l1 := bytes "Time: " ++ timeText st
        l2 := bytes "ADC:" ++ fmt_4u (u32 adc) ++ bytes " Msg:" ++ cstrAt st.lcd_custom_msg 0
        trace := (report st adc).trace } := by
  simp only [report, hflag, if_true, reportAdc, takeLatch, reportTelemetry, reportLine1,
    reportLine2, telemetry, timeText, List.append_assoc]

end Odev4

theorem head?_takeWhile_cons (f : Nat → Bool) (p : Nat) (rest : List Nat) :
    ∀ x ∈ (List.takeWhile f (p :: rest)).head?, x = p := by
  intro x hx
  rw [List.takeWhile_cons] at hx
  split_ifs at hx
  · simpa using hx.symm
  · simp at hx

namespace Odev4

/-- C13 (counterexample): with the digit `'5'` at offset 2 of the payload
`"12530:45"`, the `'S'` command commits hours = 12530, not the value 12 of
bytes [0,2). -/
theorem set_time_digit_separator_counterexample :
    (bytes "12530:45").map isdigit = [true, true, true, true, true, false, true, true] ∧
    (rxBytes initState (83 :: bytes "12530:45")).hours = 12530 ∧
    (rxBytes initState (83 :: bytes "12530:45")).hours ≠ ((10 * 1 + 2 : Nat) : Int) := by
  decide

/-- C13 (amended): for every 8-byte time payload whose bytes at offsets 0, 1,
3, 4, 6, 7 are ASCII digits and whose bytes at offsets 2 and 5 are any bytes
that are not ASCII digits, the `'S'` command commits hours, minutes and seconds
as the two-digit decimal values of bytes [0,2), [3,5) and [6,8). -/
theorem set_time_command_any_separator (st : State) (hpc : st.pc = Pc.idle)
    (hb : st.b.length = 9) (d0 d1 d2 d3 d4 d5 p q : Nat)
    (h0 : d0 < 10) (h1 : d1 < 10) (h2 : d2 < 10) (h3 : d3 < 10) (h4 : d4 < 10) (h5 : d5 < 10)
    (hp : p < 256) (hq : q < 256) (hpd : isdigit p = false) (hqd : isdigit q = false) :
    (rxBytes st [83, 48 + d0, 48 + d1, p, 48 + d2, 48 + d3, q, 48 + d4, 48 + d5]).hours
      = ((10 * d0 + d1 : Nat) : Int) ∧
    (rxBytes st [83, 48 + d0, 48 + d1, p, 48 + d2, 48 + d3, q, 48 + d4, 48 + d5]).minutes
      = ((10 * d2 + d3 : Nat) : Int) ∧
    (rxBytes st [83, 48 + d0, 48 + d1, p, 48 + d2, 48 + d3, q, 48 + d4, 48 + d5]).seconds
      = ((10 * d4 + d5 : Nat) : Int) := by
  have e0 : u8 (48 + d0) = 48 + d0 := by unfold u8; omega
  have e1 : u8 (48 + d1) = 48 + d1 := by unfold u8; omega
  have e2 : u8 (48 + d2) = 48 + d2 := by unfold u8; omega
  have e3 : u8 (48 + d3) = 48 + d3 := by unfold u8; omega
  have e4 : u8 (48 + d4) = 48 + d4 := by unfold u8; omega
  have e5 : u8 (48 + d5) = 48 + d5 := by unfold u8; omega
  have ep : u8 p = p := Nat.mod_eq_of_lt hp
  have eq : u8 q = q := Nat.mod_eq_of_lt hq
  have n0 : ¬ (48 + d0 = 0) := by omega
  have n1 : ¬ (48 + d1 = 0) := by omega
  have n2 : ¬ (48 + d2 = 0) := by omega
  have n3 : ¬ (48 + d3 = 0) := by omega
  have n4 : ¬ (48 + d4 = 0) := by omega
  have n5 : ¬ (48 + d5 = 0) := by omega
  rw [rxBytes_time st hpc hb, e0, e1, e2, e3, e4, e5, ep, eq]
  have c0 : cstrAt [48 + d0, 48 + d1, p, 48 + d2, 48 + d3, q, 48 + d4, 48 + d5, 0] 0
      = (48 + d0) :: (48 + d1) ::
        List.takeWhile (· ≠ 0) [p, 48 + d2, 48 + d3, q, 48 + d4, 48 + d5, 0] := by
    simp [cstrAt, List.takeWhile_cons, n0, n1]
  have c3 : cstrAt [48 + d0, 48 + d1, p, 48 + d2, 48 + d3, q, 48 + d4, 48 + d5, 0] 3
      = (48 + d2) :: (48 + d3) :: List.takeWhile (· ≠ 0) [q, 48 + d4, 48 + d5, 0] := by
    simp [cstrAt, List.takeWhile_cons, n2, n3]
  have c6 : cstrAt [48 + d0, 48 + d1, p, 48 + d2, 48 + d3, q, 48 + d4, 48 + d5, 0] 6
      = [48 + d4, 48 + d5] := by
    simp [cstrAt, List.takeWhile, n4, n5]
  simp only [c0, c3, c6]
  refine ⟨atoi_two_digits d0 d1 h0 h1 _ ?_, atoi_two_digits d2 d3 h2 h3 _ ?_,
    atoi_two_digits d4 d5 h4 h5 _ ?_⟩
  · intro c hc
    rw [head?_takeWhile_cons _ _ _ c hc]; exact hpd
  · intro c hc
    rw [head?_takeWhile_cons _ _ _ c hc]; exact hqd
  · simp

theorem set_time_command_any_separator_witness :
    (rxBytes initState (83 :: bytes "12 30-45")).hours = 12 ∧
    (rxBytes initState (83 :: bytes "12 30-45")).minutes = 30 ∧
    (rxBytes initState (83 :: bytes "12 30-45")).seconds = 45 :=
  set_time_command_any_separator initState rfl rfl 1 2 3 0 4 5 32 45
    (by decide) (by decide) (by decide) (by decide) (by decide) (by decide)
    (by decide) (by decide) rfl rfl

end Odev4

namespace Odev4

theorem ticks_frame (n : Nat) (st : State) :
    (ticks n st).pc = st.pc ∧ (ticks n st).button_latch = st.button_latch ∧
    (ticks n st).lcd_custom_msg = st.lcd_custom_msg ∧ (ticks n st).adcValue = st.adcValue ∧
    (ticks n st).l1 = st.l1 ∧ (ticks n st).l2 = st.l2 ∧ (ticks n st).txBuf = st.txBuf ∧
    uartBytes (ticks n st).trace = uartBytes st.trace ∧
    pinWrites (ticks n st).trace = pinWrites st.trace ∧
    (0 < n → (ticks n st).send_report_flag = true) := by
  induction n with
  | zero => simp [ticks]
  | succ k ih =>
    obtain ⟨f1, f2, f3, f4, f5, f6, f7, f8, f9, f10, f11, f12⟩ := Timer0IntHandler_frame_fields (ticks k st)
    obtain ⟨i1, i2, i3, i4, i5, i6, i7, i8, i9, _⟩ := ih
    simp only [ticks]
    exact ⟨f9.trans i1, f2.trans i2, f3.trans i3, f4.trans i4, f5.trans i5, f6.trans i6,
      f7.trans i7, f12.trans i8, f11.trans i9, fun _ => f1⟩

end Odev4

namespace Odev4

/-- The clock after `n` ticks depends only on the clock before them. -/
theorem ticks_clock_congr (n : Nat) (a b : State)
    (h : a.hours = b.hours ∧ a.minutes = b.minutes ∧ a.seconds = b.seconds) :
    (ticks n a).hours = (ticks n b).hours ∧ (ticks n a).minutes = (ticks n b).minutes ∧
    (ticks n a).seconds = (ticks n b).seconds := by
  induction n with
  | zero => exact h
  | succ k ih =>
    obtain ⟨i1, i2, i3⟩ := ih
    simp only [ticks]
    rw [Timer0IntHandler_hours, Timer0IntHandler_minutes, Timer0IntHandler_seconds,
      Timer0IntHandler_hours, Timer0IntHandler_minutes, Timer0IntHandler_seconds, i1, i2, i3]
    exact ⟨rfl, rfl, rfl⟩

theorem timeText_congr (a b : State)
    (h : a.hours = b.hours ∧ a.minutes = b.minutes ∧ a.seconds = b.seconds) :
    timeText a = timeText b := by
  unfold timeText
  rw [h.1, h.2.1, h.2.2]

theorem reportWithTicks_no_tick (st : State) (adc : Nat) :
    reportWithTicks st adc (fun _ => 0) = report st adc := rfl

/-- C19 (counterexample): with the clock at 00:00:59 and one tick firing
between the transmission of the telemetry line and the formatting of the first
display line, the telemetry line carries 00:00:59 and the display line
00:01:00: two different clock states in one report. -/
theorem report_snapshot_counterexample :
    (reportWithTicks { initState with seconds := 59, send_report_flag := true } 7
        (fun i => if i = 3 then 1 else 0)).txBuf = bytes "00:00:59;7;0\r\n" ∧
    (reportWithTicks { initState with seconds := 59, send_report_flag := true } 7
        (fun i => if i = 3 then 1 else 0)).l1 = bytes "Time: 00:01:00" := by
  decide

/-- C19 (amended): when ticks fire only between the statements of the report
and none fires between the formatting of the telemetry line and the formatting
of the first display line, the time printed in the telemetry line and the time
printed on the display are the time text of one and the same clock state, the
clock reached from the clock at the start of the report by the ticks fired
before the telemetry line was formatted. -/
theorem report_snapshot_without_tick (st : State) (adc : Nat) (t : Nat → Nat)
    (hflag : st.send_report_flag = true) (h3 : t 3 = 0) :
    (reportWithTicks st adc t).txBuf
      = timeText (ticks (t 0 + t 1 + t 2) st) ++ [59] ++ fmt_u (u32 adc) ++ [59] ++
          fmt_d (if st.button_latch then 1 else 0) ++ [13, 10] ∧
    (reportWithTicks st adc t).l1 = bytes "Time: " ++ timeText (ticks (t 0 + t 1 + t 2) st) := by
  have hr : reportWithTicks st adc t =
      reportLine2 (ticks (t 4) (reportLine1 (ticks (t 3) (reportTelemetry
        (ticks (t 2) (takeLatch (ticks (t 1)
          (reportAdc (ticks (t 0) { st with send_report_flag := false }) adc))).2)
        (takeLatch (ticks (t 1)
          (reportAdc (ticks (t 0) { st with send_report_flag := false }) adc))).1)))) := by
    simp only [reportWithTicks, hflag, if_true]
  generalize hs1 : ticks (t 0) { st with send_report_flag := false } = s1 at hr
  generalize hs3 : ticks (t 1) (reportAdc s1 adc) = s3 at hr
  generalize hs5 : ticks (t 2) (takeLatch s3).2 = s5 at hr
  -- the latch and the ADC value seen by the telemetry line
  have l1 : s1.button_latch = st.button_latch := by
    rw [← hs1]; exact (ticks_frame _ _).2.1
  have l3 : s3.button_latch = st.button_latch := by
    rw [← hs3, (ticks_frame _ _).2.1]; exact l1
  have a5 : s5.adcValue = u32 adc := by
    rw [← hs5, (ticks_frame _ _).2.2.2.1]
    show s3.adcValue = _
    rw [← hs3, (ticks_frame _ _).2.2.2.1]
    rfl
  -- the clock seen by the telemetry line
  have c1 : s1.hours = (ticks (t 0) st).hours ∧ s1.minutes = (ticks (t 0) st).minutes ∧
      s1.seconds = (ticks (t 0) st).seconds := by
    rw [← hs1]; exact ticks_clock_congr _ _ _ ⟨rfl, rfl, rfl⟩
  have c3 : s3.hours = (ticks (t 1) (ticks (t 0) st)).hours ∧
      s3.minutes = (ticks (t 1) (ticks (t 0) st)).minutes ∧
      s3.seconds = (ticks (t 1) (ticks (t 0) st)).seconds := by
    rw [← hs3]; exact ticks_clock_congr _ _ _ c1
  have c5 : s5.hours = (ticks (t 0 + t 1 + t 2) st).hours ∧
      s5.minutes = (ticks (t 0 + t 1 + t 2) st).minutes ∧
      s5.seconds = (ticks (t 0 + t 1 + t 2) st).seconds := by
    have e : t 0 + t 1 + t 2 = t 2 + (t 1 + t 0) := by omega
    rw [e, ticks_add, ticks_add, ← hs5]
    exact ticks_clock_congr _ _ _ c3
  have tt : timeText s5 = timeText (ticks (t 0 + t 1 + t 2) st) := timeText_congr _ _ c5
  rw [hr, h3]
  constructor
  · show (ticks (t 4) (reportLine1 (reportTelemetry s5 (takeLatch s3).1))).txBuf = _
    rw [(ticks_frame _ _).2.2.2.2.2.2.1]
    show telemetry s5 (if s3.button_latch then 1 else 0) = _
    rw [l3, ← tt]
    simp only [telemetry, timeText, a5, List.append_assoc]
  · show (ticks (t 4) (reportLine1 (reportTelemetry s5 (takeLatch s3).1))).l1 = _
    rw [(ticks_frame _ _).2.2.2.2.1, ← tt]
    simp only [reportLine1, reportTelemetry, timeText, List.append_assoc]

theorem report_snapshot_without_tick_witness :
    (reportWithTicks { initState with seconds := 59, send_report_flag := true } 7
        (fun i => if i = 1 then 1 else 0)).txBuf = bytes "00:01:00;7;0\r\n" ∧
    (reportWithTicks { initState with seconds := 59, send_report_flag := true } 7
        (fun i => if i = 1 then 1 else 0)).l1 = bytes "Time: 00:01:00" :=
  report_snapshot_without_tick { initState with seconds := 59, send_report_flag := true } 7
    (fun i => if i = 1 then 1 else 0) rfl rfl

end Odev4

/-! ### The report with ticks between its statements -/

namespace Odev4

end Odev4

namespace Odev4

end Odev4

namespace Odev4

end Odev4

/-- C21: on every valid clock (hours < 24, minutes < 60, seconds < 60) the
nested `== 60` handler of Odev2, the sequential `> 59` handler of Odev3 and the
nested `>= 60` handler of Odev4 produce the same next clock value. -/
theorem tick_handlers_agree (h m s : Nat) (hh : h < 24) (hm : m < 60) (hs : s < 60)
    (st2 : Odev2.State) (st3 : Odev3.State) (st4 : Odev4.State)
    (e2 : st2.g_ui32Hours = h ∧ st2.g_ui32Minutes = m ∧ st2.g_ui32Seconds = s)
    (e3 : st3.g_ui32Hours = h ∧ st3.g_ui32Minutes = m ∧ st3.g_ui32Seconds = s)
    (e4 : st4.hours = (h : Int) ∧ st4.minutes = (m : Int) ∧ st4.seconds = (s : Int)) :
    ((Odev3.Timer0_ISR st3).g_ui32Hours = (Odev2.Timer0_ISR st2).g_ui32Hours ∧
     (Odev3.Timer0_ISR st3).g_ui32Minutes = (Odev2.Timer0_ISR st2).g_ui32Minutes ∧
     (Odev3.Timer0_ISR st3).g_ui32Seconds = (Odev2.Timer0_ISR st2).g_ui32Seconds) ∧
    ((Odev4.Timer0IntHandler st4).hours = ((Odev2.Timer0_ISR st2).g_ui32Hours : Int) ∧
     (Odev4.Timer0IntHandler st4).minutes = ((Odev2.Timer0_ISR st2).g_ui32Minutes : Int) ∧
     (Odev4.Timer0IntHandler st4).seconds = ((Odev2.Timer0_ISR st2).g_ui32Seconds : Int)) := by
  obtain ⟨a1, a2, a3⟩ := e2
  obtain ⟨b1, b2, b3⟩ := e3
  obtain ⟨c1, c2, c3⟩ := e4
  have u1 : u32 (s + 1) = s + 1 := Nat.mod_eq_of_lt (by omega)
  have u2 : u32 (m + 1) = m + 1 := Nat.mod_eq_of_lt (by omega)
  have u3 : u32 (h + 1) = h + 1 := Nat.mod_eq_of_lt (by omega)
  rw [odev3_Timer0_ISR_hours, odev3_Timer0_ISR_minutes, odev3_Timer0_ISR_seconds,
    odev2_Timer0_ISR_hours, odev2_Timer0_ISR_minutes, odev2_Timer0_ISR_seconds,
    Odev4.Timer0IntHandler_hours, Odev4.Timer0IntHandler_minutes,
    Odev4.Timer0IntHandler_seconds, a1, a2, a3, b1, b2, b3, c1, c2, c3, u1, u2, u3,
    wrapInt32_small ((s : Int) + 1) (by omega) (by omega),
    wrapInt32_small ((m : Int) + 1) (by omega) (by omega),
    wrapInt32_small ((h : Int) + 1) (by omega) (by omega)]
  refine ⟨⟨?_, ?_, ?_⟩, ?_, ?_, ?_⟩ <;> split_ifs <;> omega

theorem tick_handlers_agree_witness :
    (Odev2.Timer0_ISR
        { Odev2.initState with g_ui32Hours := 23, g_ui32Minutes := 59, g_ui32Seconds := 59 }
      ).g_ui32Hours = 0 ∧
    (Odev3.Timer0_ISR
        { Odev3.initState with g_ui32Hours := 23, g_ui32Minutes := 59, g_ui32Seconds := 59 }
      ).g_ui32Hours
      = (Odev2.Timer0_ISR
        { Odev2.initState with g_ui32Hours := 23, g_ui32Minutes := 59, g_ui32Seconds := 59 }
      ).g_ui32Hours ∧
    (Odev4.Timer0IntHandler
        { Odev4.initState with hours := 23, minutes := 59, seconds := 59 }).seconds
      = ((Odev2.Timer0_ISR
        { Odev2.initState with g_ui32Hours := 23, g_ui32Minutes := 59, g_ui32Seconds := 59 }
      ).g_ui32Seconds : Int) :=
  ⟨rfl,
   (tick_handlers_agree 23 59 59 (by decide) (by decide) (by decide)
      { Odev2.initState with g_ui32Hours := 23, g_ui32Minutes := 59, g_ui32Seconds := 59 }
      { Odev3.initState with g_ui32Hours := 23, g_ui32Minutes := 59, g_ui32Seconds := 59 }
      { Odev4.initState with hours := 23, minutes := 59, seconds := 59 }
      ⟨rfl, rfl, rfl⟩ ⟨rfl, rfl, rfl⟩ ⟨rfl, rfl, rfl⟩).1.1,
   (tick_handlers_agree 23 59 59 (by decide) (by decide) (by decide)
      { Odev2.initState with g_ui32Hours := 23, g_ui32Minutes := 59, g_ui32Seconds := 59 }
      { Odev3.initState with g_ui32Hours := 23, g_ui32Minutes := 59, g_ui32Seconds := 59 }
      { Odev4.initState with hours := 23, minutes := 59, seconds := 59 }
      ⟨rfl, rfl, rfl⟩ ⟨rfl, rfl, rfl⟩ ⟨rfl, rfl, rfl⟩).2.2.2⟩

/-! ### Frame of `LCD_Write_4Bit` -/

set_option maxRecDepth 100000 in
theorem write_4bit_value_bits : ∀ d, d < 256 →
    (u8 (u8 d <<< 4)).testBit 4 = d.testBit 0 ∧ (u8 (u8 d <<< 4)).testBit 5 = d.testBit 1 ∧
    (u8 (u8 d <<< 4)).testBit 6 = d.testBit 2 ∧ (u8 (u8 d <<< 4)).testBit 7 = d.testBit 3 ∧
    nibbleBits (u8 (u8 d <<< 4)) = d % 16 := by
  decide

/-- Pin levels after each event of one `LCD_Write_4Bit` of Odev4 writing the
value `v` to the data pins. -/
theorem Odev4.write_4bit_pins (s : Pins) (v : Nat) :
    (∀ q i, q ≠ Port.B → runEvs s
      [Ev.gpioWrite Port.B 240 v, Ev.gpioWrite Port.B 2 2, Ev.delay 40000,
       Ev.gpioWrite Port.B 2 0, Ev.delay 40000] q i = s q i) ∧
    (∀ i, i ≠ 1 → i ≠ 4 → i ≠ 5 → i ≠ 6 → i ≠ 7 → runEvs s
      [Ev.gpioWrite Port.B 240 v, Ev.gpioWrite Port.B 2 2, Ev.delay 40000,
       Ev.gpioWrite Port.B 2 0, Ev.delay 40000] Port.B i = s Port.B i) ∧
    (∀ j, j < 4 → runEvs s
      [Ev.gpioWrite Port.B 240 v, Ev.gpioWrite Port.B 2 2, Ev.delay 40000,
       Ev.gpioWrite Port.B 2 0, Ev.delay 40000] Port.B (4 + j) = v.testBit (4 + j)) ∧
    runEvs s
      [Ev.gpioWrite Port.B 240 v, Ev.gpioWrite Port.B 2 2, Ev.delay 40000,
       Ev.gpioWrite Port.B 2 0, Ev.delay 40000] Port.B 1 = false ∧
    (snapshots s
      [Ev.gpioWrite Port.B 240 v, Ev.gpioWrite Port.B 2 2, Ev.delay 40000,
       Ev.gpioWrite Port.B 2 0, Ev.delay 40000]).map (fun p => p Port.B 1)
      = [s Port.B 1, true, true, false, false] := by
  refine ⟨?_, ?_, ?_, ?_, ?_⟩
  · intro q i hq
    simp [runEvs, applyEv, gpioApply, hq]
  · intro i h1 h4 h5 h6 h7
    have t1 : Nat.testBit 2 i = false := by
      rw [show (2 : Nat) = 2 ^ 1 from rfl, Nat.testBit_two_pow]
      simp; omega
    have t2 : i < 8 → Nat.testBit 240 i = false := by
      intro hi
      interval_cases i <;> first | rfl | omega
    simp only [runEvs, List.foldl_cons, List.foldl_nil, applyEv, gpioApply]
    by_cases hi : i < 8
    · simp [t1, t2 hi]
    · simp [hi]
  · intro j hj
    interval_cases j <;> simp +decide [runEvs, applyEv, gpioApply]
  · simp +decide [runEvs, applyEv, gpioApply]
  · simp +decide [snapshots, applyEv, gpioApply]

theorem Odev4.LCD_Write_4Bit_events_any (d : Nat) :
    Odev4.LCD_Write_4Bit d =
      [Ev.gpioWrite Port.B 240 (u8 (u8 d <<< 4)), Ev.gpioWrite Port.B 2 2, Ev.delay 40000,
       Ev.gpioWrite Port.B 2 0, Ev.delay 40000] := rfl

/-- C23: for every 8-bit argument `d` and every prior pin state, one
`LCD_Write_4Bit(d)` of Odev4 leaves pins 4..7 of port B holding the low four
bits of `d`, leaves the register-select pin (pin 0), pins 2..3, every pin of
port B other than 1 and 4..7, and every other port unchanged, and leaves the
enable pin (pin 1) low; enable is written high once and low once, its level
after the five events of the call is: prior level, high, high, low, low, so
there is exactly one falling edge, at which the display latches the low four
bits of `d`. -/
theorem lcd_write_4bit_frame (d : Nat) (hd : d < 256) (s : Pins) :
    (∀ j, j < 4 → runEvs s (Odev4.LCD_Write_4Bit d) Port.B (4 + j) = d.testBit j) ∧
    dataNibble Odev4.wiring (runEvs s (Odev4.LCD_Write_4Bit d)) = d % 16 ∧
    runEvs s (Odev4.LCD_Write_4Bit d) Port.B 0 = s Port.B 0 ∧
    runEvs s (Odev4.LCD_Write_4Bit d) Port.B 2 = s Port.B 2 ∧
    runEvs s (Odev4.LCD_Write_4Bit d) Port.B 3 = s Port.B 3 ∧
    (∀ i, i ≠ 1 → i ≠ 4 → i ≠ 5 → i ≠ 6 → i ≠ 7 →
      runEvs s (Odev4.LCD_Write_4Bit d) Port.B i = s Port.B i) ∧
    (∀ q i, q ≠ Port.B → runEvs s (Odev4.LCD_Write_4Bit d) q i = s q i) ∧
    runEvs s (Odev4.LCD_Write_4Bit d) Port.B 1 = false ∧
    (snapshots s (Odev4.LCD_Write_4Bit d)).map (fun p => p Port.B 1)
      = [s Port.B 1, true, true, false, false] ∧
    (Odev4.LCD_Write_4Bit d).count (Ev.gpioWrite Port.B Odev4.E Odev4.E) = 1 ∧
    (Odev4.LCD_Write_4Bit d).count (Ev.gpioWrite Port.B Odev4.E 0) = 1 ∧
    lcdLatched Odev4.wiring s (Odev4.LCD_Write_4Bit d) = [(s Port.B 0, d % 16)] := by
  obtain ⟨b0, b1, b2, b3, nb⟩ := write_4bit_value_bits d hd
  obtain ⟨p1, p2, p3, p4, p5⟩ := Odev4.write_4bit_pins s (u8 (u8 d <<< 4))
  rw [Odev4.LCD_Write_4Bit_events_any d]
  have q0 := p3 0 (by decide)
  have q1 := p3 1 (by decide)
  have q2 := p3 2 (by decide)
  have q3 := p3 3 (by decide)
  refine ⟨?_, ?_, p2 0 (by decide) (by decide) (by decide) (by decide) (by decide),
    p2 2 (by decide) (by decide) (by decide) (by decide) (by decide),
    p2 3 (by decide) (by decide) (by decide) (by decide) (by decide),
    p2, p1, p4, p5, ?_, ?_, ?_⟩
  · intro j hj
    interval_cases j
    · rw [q0]; exact b0
    · rw [q1]; exact b1
    · rw [q2]; exact b2
    · rw [q3]; exact b3
  · have e : dataNibble Odev4.wiring (runEvs s
        [Ev.gpioWrite Port.B 240 (u8 (u8 d <<< 4)), Ev.gpioWrite Port.B 2 2, Ev.delay 40000,
         Ev.gpioWrite Port.B 2 0, Ev.delay 40000]) = nibbleBits (u8 (u8 d <<< 4)) := by
      unfold dataNibble nibbleBits
      show (if runEvs s _ Port.B (4 + 0) = true then 1 else 0) +
        (if runEvs s _ Port.B (4 + 1) = true then 2 else 0) +
        (if runEvs s _ Port.B (4 + 2) = true then 4 else 0) +
        (if runEvs s _ Port.B (4 + 3) = true then 8 else 0) = _
      rw [q0, q1, q2, q3]
    rw [e, nb]
  · simp +decide [Odev4.E, GPIO_PIN]
  · simp +decide [Odev4.E, GPIO_PIN]
  · rw [(Odev4.write_4bit_latched s _).1, nb]

theorem lcd_write_4bit_frame_witness :
    (0xAB < 256) ∧
    dataNibble Odev4.wiring (runEvs (fun _ _ => true) (Odev4.LCD_Write_4Bit 0xAB)) = 0xB ∧
    runEvs (fun _ _ => true) (Odev4.LCD_Write_4Bit 0xAB) Port.B 0 = true ∧
    runEvs (fun _ _ => true) (Odev4.LCD_Write_4Bit 0xAB) Port.B 1 = false ∧
    lcdLatched Odev4.wiring (fun _ _ => true) (Odev4.LCD_Write_4Bit 0xAB) = [(true, 0xB)] :=
  ⟨by decide,
   (lcd_write_4bit_frame 0xAB (by decide) (fun _ _ => true)).2.1,
   (lcd_write_4bit_frame 0xAB (by decide) (fun _ _ => true)).2.2.1,
   (lcd_write_4bit_frame 0xAB (by decide) (fun _ _ => true)).2.2.2.2.2.2.2.1,
   (lcd_write_4bit_frame 0xAB (by decide) (fun _ _ => true)).2.2.2.2.2.2.2.2.2.2.2⟩

/-! ### Message terminator and line lengths -/

theorem utoaAux_length (fuel : Nat) : ∀ (n k : Nat) (acc : List Nat), n < fuel → 1 ≤ k →
    n < 10 ^ k → (utoaAux fuel n acc).length ≤ k + acc.length := by
  induction fuel with
  | zero => intro n k acc h; omega
  | succ f ih =>
    intro n k acc hf hk hn
    by_cases h10 : n < 10
    · simp only [utoaAux, h10, if_true, List.length_cons]
      omega
    · have hk2 : 2 ≤ k := by
        by_contra hlt
        have : k = 1 := by omega
        rw [this] at hn
        omega
      have hdiv : n / 10 < 10 ^ (k - 1) := by
        apply Nat.div_lt_of_lt_mul
        have e : 10 * 10 ^ (k - 1) = 10 ^ k := by
          rw [← Nat.pow_succ']
          congr 1
          omega
        rw [e]
        exact hn
      have := ih (n / 10) (k - 1) ((48 + n % 10) :: acc) (by omega) (by omega) hdiv
      simp only [utoaAux, h10, if_false]
      simp only [List.length_cons] at this
      omega

theorem utoa_length (n k : Nat) (hk : 1 ≤ k) (hn : n < 10 ^ k) :
    1 ≤ (utoa n).length ∧ (utoa n).length ≤ k := by
  constructor
  · have := (utoa_spec n).1
    cases h : utoa n with
    | nil => exact absurd h this
    | cons a as => simp
  · have := utoaAux_length (n + 1) n k [] (by omega) hk hn
    simpa [utoa] using this

theorem fmt_02d_length (x : Int) (h1 : -2147483648 ≤ x) (h2 : x ≤ 2147483647) :
    (fmt_02d x).length ≤ 11 := by
  have hn : x.natAbs < 10 ^ 10 := by
    have : (10 : Nat) ^ 10 = 10000000000 := by norm_num
    omega
  obtain ⟨l1, l2⟩ := utoa_length x.natAbs 10 (by omega) hn
  unfold fmt_02d
  dsimp only
  split_ifs
  · simp only [List.length_cons, List.length_append, List.length_replicate]
    omega
  · simp only [List.length_append, List.length_replicate]
    omega

theorem fmt_u_length (x : Nat) : 1 ≤ (fmt_u x).length ∧ (fmt_u x).length ≤ 10 := by
  have hn : u32 x < 10 ^ 10 := by
    have : (10 : Nat) ^ 10 = 10000000000 := by norm_num
    unfold u32
    omega
  exact utoa_length (u32 x) 10 (by omega) hn

theorem fmt_4u_length (x : Nat) : (fmt_4u x).length ≤ 10 := by
  obtain ⟨l1, l2⟩ := fmt_u_length x
  unfold fmt_4u
  dsimp only
  simp only [List.length_append, List.length_replicate]
  omega

theorem cstrAt_length_le_three (buf : List Nat) (h : buf[3]? = some 0) :
    (cstrAt buf 0).length ≤ 3 := by
  match buf, h with
  | a :: b :: c :: d :: rest, h =>
    simp only [List.getElem?_cons_succ, List.getElem?_cons_zero, Option.some.injEq] at h
    subst h
    simp only [cstrAt, List.drop_zero, List.takeWhile_cons]
    split_ifs <;> simp_all

namespace Odev4

theorem rxByte_msg_terminator (st : State) (c : Nat) (h : st.lcd_custom_msg[3]? = some 0) :
    (rxByte st c).lcd_custom_msg[3]? = some 0 := by
  have hlen : 3 < st.lcd_custom_msg.length := by
    by_contra hc
    rw [List.getElem?_eq_none (by omega)] at h
    exact absurd h (by simp)
  unfold rxByte
  cases hp : st.pc with
  | idle =>
    dsimp only
    split_ifs <;> exact h
  | timeWait i =>
    dsimp only
    split_ifs <;> exact h
  | msgWait i =>
    dsimp only
    split_ifs with hi
    · show (st.lcd_custom_msg.set i (u8 c))[3]? = some 0
      rw [List.getElem?_set_ne (by omega)]
      exact h
    · show ((st.lcd_custom_msg.set i (u8 c)).set 3 0)[3]? = some 0
      rw [List.getElem?_set_self]
      simp only [List.length_set]
      exact hlen

theorem report_msg (st : State) (adc : Nat) :
    (report st adc).lcd_custom_msg = st.lcd_custom_msg := by
  by_cases hflag : st.send_report_flag = true
  · rw [report_fields st adc hflag]
  · simp [report, hflag]

theorem step_msg_terminator (st : State) (e : Event) (h : st.lcd_custom_msg[3]? = some 0) :
    (step st e).lcd_custom_msg[3]? = some 0 := by
  cases e with
  | tick =>
    show (Timer0IntHandler st).lcd_custom_msg[3]? = some 0
    rw [(Timer0IntHandler_frame_fields st).2.2.1]
    exact h
  | main pin rx adc =>
    have hp : (pollButton st pin).lcd_custom_msg = st.lcd_custom_msg := by
      unfold pollButton
      split_ifs <;> rfl
    show (mainStep st pin rx adc).lcd_custom_msg[3]? = some 0
    unfold mainStep
    cases hpc : st.pc with
    | idle =>
      cases rx with
      | none =>
        dsimp only
        rw [report_msg, hp]; exact h
      | some c =>
        dsimp only
        split_ifs
        · rw [report_msg]; exact rxByte_msg_terminator _ c (by rw [hp]; exact h)
        · exact rxByte_msg_terminator _ c (by rw [hp]; exact h)
    | timeWait i =>
      cases rx with
      | none => exact h
      | some c =>
        dsimp only
        split_ifs
        · rw [report_msg]; exact rxByte_msg_terminator _ c h
        · exact rxByte_msg_terminator _ c h
    | msgWait i =>
      cases rx with
      | none => exact h
      | some c =>
        dsimp only
        split_ifs
        · rw [report_msg]; exact rxByte_msg_terminator _ c h
        · exact rxByte_msg_terminator _ c h

theorem run_msg_terminator (evs : List Event) :
    ∀ st : State, st.lcd_custom_msg[3]? = some 0 → (run st evs).lcd_custom_msg[3]? = some 0 := by
  induction evs with
  | nil => intro st h; exact h
  | cons e es ih =>
    intro st h
    exact ih (step st e) (step_msg_terminator st e h)

theorem report_line_lengths (st : State) (adc : Nat) (hflag : st.send_report_flag = true)
    (hh : -2147483648 ≤ st.hours ∧ st.hours ≤ 2147483647)
    (hm : -2147483648 ≤ st.minutes ∧ st.minutes ≤ 2147483647)
    (hs : -2147483648 ≤ st.seconds ∧ st.seconds ≤ 2147483647)
    (hmsg : st.lcd_custom_msg[3]? = some 0) :
    (report st adc).txBuf.length ≤ 63 ∧ (report st adc).l1.length ≤ 63 ∧
    (report st adc).l2.length ≤ 63 := by
  have a1 := fmt_02d_length st.hours hh.1 hh.2
  have a2 := fmt_02d_length st.minutes hm.1 hm.2
  have a3 := fmt_02d_length st.seconds hs.1 hs.2
  have a4 := (fmt_u_length (u32 adc)).2
  have a5 := fmt_4u_length (u32 adc)
  have a6 := cstrAt_length_le_three st.lcd_custom_msg hmsg
  have a7 : (fmt_d (if st.button_latch then 1 else 0)).length = 1 := by
    cases st.button_latch <;> rfl
  have a8 : (bytes "Time: ").length = 6 := rfl
  have a9 : (bytes "ADC:").length = 4 := rfl
  have a10 : (bytes " Msg:").length = 5 := rfl
  rw [report_fields st adc hflag]
  simp only [timeText, List.length_append, List.length_cons, List.length_nil, a7, a8, a9, a10]
  omega

end Odev4

/-- C22: in Odev4 the byte at index 3 of `lcd_custom_msg` is NUL in the initial
state, stays NUL through every received byte (hence after every command) and in
every state reached from the initial state by ticks and main-loop advances, so
the message is at most 3 characters long; and for every 32-bit signed value of
hours, minutes and seconds, every ADC value and every such message, each of the
three lines formatted by a report (telemetry, `Time: ...`, `ADC:... Msg:...`)
is at most 63 characters long, so it fits its 64-byte buffer together with the
terminator. -/
theorem message_and_lines_fit_buffers :
    Odev4.initState.lcd_custom_msg[3]? = some 0 ∧
    (∀ (st : Odev4.State) (c : Nat), st.lcd_custom_msg[3]? = some 0 →
      (Odev4.rxByte st c).lcd_custom_msg[3]? = some 0) ∧
    (∀ evs : List Odev4.Event, (Odev4.run Odev4.initState evs).lcd_custom_msg[3]? = some 0) ∧
    (∀ st : Odev4.State, st.lcd_custom_msg[3]? = some 0 →
      (cstrAt st.lcd_custom_msg 0).length ≤ 3) ∧
    (∀ (st : Odev4.State) (adc : Nat), st.send_report_flag = true →
      -2147483648 ≤ st.hours ∧ st.hours ≤ 2147483647 →
      -2147483648 ≤ st.minutes ∧ st.minutes ≤ 2147483647 →
      -2147483648 ≤ st.seconds ∧ st.seconds ≤ 2147483647 →
      st.lcd_custom_msg[3]? = some 0 →
      (Odev4.report st adc).txBuf.length ≤ 63 ∧ (Odev4.report st adc).l1.length ≤ 63 ∧
      (Odev4.report st adc).l2.length ≤ 63) := by
  refine ⟨rfl, Odev4.rxByte_msg_terminator, ?_, ?_, ?_⟩
  · intro evs
    exact Odev4.run_msg_terminator evs Odev4.initState rfl
  · intro st h
    exact cstrAt_length_le_three st.lcd_custom_msg h
  · intro st adc hflag hh hm hs hmsg
    exact Odev4.report_line_lengths st adc hflag hh hm hs hmsg

theorem message_and_lines_fit_buffers_witness :
    (Odev4.rxBytes Odev4.initState (bytes "MXYZ")).lcd_custom_msg[3]? = some 0 ∧
    (cstrAt (Odev4.rxBytes Odev4.initState (bytes "MXYZ")).lcd_custom_msg 0).length ≤ 3 ∧
    (Odev4.report
        { Odev4.initState with
          hours := -2147483648, minutes := -2147483648, seconds := -2147483648,
          send_report_flag := true } 4294967295).txBuf.length ≤ 63 ∧
    (Odev4.report
        { Odev4.initState with
          hours := -2147483648, minutes := -2147483648, seconds := -2147483648,
          send_report_flag := true } 4294967295).l1.length ≤ 63 ∧
    (Odev4.report
        { Odev4.initState with
          hours := -2147483648, minutes := -2147483648, seconds := -2147483648,
          send_report_flag := true } 4294967295).l2.length ≤ 63 :=
  ⟨by decide,
   message_and_lines_fit_buffers.2.2.2.1 _ (by decide),
   message_and_lines_fit_buffers.2.2.2.2
      { Odev4.initState with
        hours := -2147483648, minutes := -2147483648, seconds := -2147483648,
        send_report_flag := true } 4294967295 rfl (by decide) (by decide) (by decide) rfl⟩

end Firmware
